import Mathlib

/-!
Verification development for the sbunce/bson Go package: a shallow embedding
of the encoder (encode.go), the decoder (decode.go, present in two copies that
differ only in the document-size ceiling), the Reach traversal (reach.go),
struct projection (encodeStruct) and the ObjectId generator (misc.go), together
with theorems that settle the specification claims.

Conventions of the embedding:
* Go byte slices and strings are `List Nat` (one entry per byte).
* Go's `interface{}` values that can appear inside documents are the inductive
  `Value`, with one constructor per BSON wrapper type handled by `encodeVal`'s
  type switch plus one constructor per coercible host-native type (`go...`
  constructors) and `goUnsupported` for a value of any type with no case in the
  switch and no kind handled by the reflect fallback.
* `Map` (Go: `map[string]interface{}`) is represented canonically as an
  association list in insertion order with the overwrite-on-repeat semantics of
  `dst[name] = val` captured by `mapInsert`.  Go map iteration order is
  unspecified; the encoder in this embedding iterates in list order, which is
  one admissible iteration order.
* Readers are pure functions from the remaining byte list to
  `Except DErr (result × remaining)`.  `io.LimitReader(rd, docLen-4)` becomes
  `take`/`drop` of the declared body length.
* The `path` argument threaded through the Go encoder/decoder/reach only feeds
  error-message strings and is dropped here; errors are modelled by structured
  constructors instead of formatted strings.
* Go panics are modelled explicitly: `ReadOne` returns a three-way result
  (`ROut`), and the decode entry points (which wrap bodies in `recover`)
  surface panics of nested calls as `DErr.panicked` errors.
-/

namespace Bson

/-- A Go string / byte slice: a list of byte values. -/
abbrev Str := List Nat

/-- True when the byte string contains no NUL byte (needed for cstrings). -/
def noNul (s : Str) : Bool := s.all (fun b => b ≠ 0)

/-- Byte-lexicographic order on byte strings, as used by Go's sort.Strings. -/
def strLt : Str → Str → Bool
  | [], [] => false
  | [], _ :: _ => true
  | _ :: _, [] => false
  | a :: as, b :: bs => if a < b then true else if b < a then false else strLt as bs

/-- Insert into a list sorted by strLt. -/
def insertStr (s : Str) : List Str → List Str
  | [] => [s]
  | t :: ts => if strLt s t then s :: t :: ts else t :: insertStr s ts

/-- Insertion sort by strLt; models Go's sort.Strings on distinct keys. -/
def sortStrs : List Str → List Str
  | [] => []
  | s :: ss => insertStr s (sortStrs ss)

/-- Little-endian byte decomposition of a natural number into k bytes. -/
def natToLE : Nat → Nat → List Nat
  | 0, _ => []
  | k + 1, n => (n % 256) :: natToLE k (n / 256)

/-- Reassemble a little-endian byte list into a natural number. -/
def fromLE : List Nat → Nat
  | [] => 0
  | b :: bs => b + 256 * fromLE bs

/-- Two's-complement signed reading of a 32-bit unsigned value. -/
def toSigned32 (u : Nat) : Int :=
  let v := u % 4294967296
  if v < 2147483648 then (v : Int) else (v : Int) - 4294967296

/-- Two's-complement signed reading of a 64-bit unsigned value. -/
def toSigned64 (u : Nat) : Int :=
  let v := u % 18446744073709551616
  if v < 9223372036854775808 then (v : Int) else (v : Int) - 18446744073709551616

/-- Little-endian 4-byte encoding of a signed 32-bit integer (two's complement),
as produced by binary.Write(buf, binary.LittleEndian, int32). -/
def intToLE4 (n : Int) : List Nat := natToLE 4 (n.emod 4294967296).toNat

/-- Little-endian 8-byte encoding of a signed 64-bit integer (two's complement). -/
def intToLE8 (n : Int) : List Nat := natToLE 8 (n.emod 18446744073709551616).toNat

/-- Digits of a natural number, structurally recursive on a fuel argument
(n+1 is always enough fuel because n/10 shrinks faster than the fuel). -/
def decDigits : Nat → Nat → Str
  | 0, _ => []
  | fuel + 1, n =>
    if n < 10 then [48 + n] else decDigits fuel (n / 10) ++ [48 + n % 10]

/-- Decimal digit string of a natural number, as produced by strconv.Itoa
for non-negative arguments (array index keys). -/
def natToDecStr (n : Nat) : Str := decDigits (n + 1) n

/-- The BSON wire-type tags from type.go. -/
def tFloat : Nat := 0x01
def tString : Nat := 0x02
def tEmbedded : Nat := 0x03
def tArray : Nat := 0x04
def tBinary : Nat := 0x05
def tUndefined : Nat := 0x06
def tObjectId : Nat := 0x07
def tBoolean : Nat := 0x08
def tUTCDateTime : Nat := 0x09
def tNull : Nat := 0x0A
def tRegexp : Nat := 0x0B
def tDBPointer : Nat := 0x0C
def tJavascript : Nat := 0x0D
def tSymbol : Nat := 0x0E
def tJavascriptScope : Nat := 0x0F
def tInt32 : Nat := 0x10
def tTimestamp : Nat := 0x11
def tInt64 : Nat := 0x12
def tMinKey : Nat := 0xFF
def tMaxKey : Nat := 0x7F

/-- Maximum document size from decode.go; the repository carries two copies of
the decoder differing only in this constant (16 MiB and 64 MiB); we follow the
16 MiB copy, which also has the string-length sanity check. -/
def maxDocLen : Int := 16 * 1024 * 1024

/-- maxDocLen as a natural number. -/
def maxDocLenNat : Nat := 16 * 1024 * 1024

mutual
/-- A Go `interface{}` value that can occur inside a BSON document: each BSON
wrapper type from type.go, the raw `BSON` document type, plus the host-native
types coerced by `encodeVal` (the `go...` constructors; `goSlice` is a native
slice handled by the reflect fallback, `goUnsupported` any value whose type has
no coercion, carrying its Go type name for the error message).  Floats are
represented by their IEEE-754 bit pattern, exactly the bits written/read by
math.Float64bits/Float64frombits. -/
inductive Value : Type where
  | float (bits : Nat)
  | str (s : Str)
  | map (m : List (Str × Value))
  | slice (s : List (Str × Value))
  | bson (b : List Nat)
  | array (a : List Value)
  | binary (b : List Nat)
  | undefined
  | objectId (b : List Nat)
  | bool (b : Bool)
  | utcDateTime (ms : Int)
  | null
  | regexp (pat opt : Str)
  | dbPointer (nm : Str) (oid : List Nat)
  | javascript (s : Str)
  | symbol (s : Str)
  | javascriptScope (js : Str) (scope : List (Str × Value))
  | int32 (n : Int)
  | timestamp (n : Int)
  | int64 (n : Int)
  | minKey
  | maxKey
  | goNil
  | goBool (b : Bool)
  | goInt8 (n : Int)
  | goInt16 (n : Int)
  | goInt32 (n : Int)
  | goInt (n : Int)
  | goInt64 (n : Int)
  | goFloat64 (bits : Nat)
  | goString (s : Str)
  | goTime (ns : Int)
  | goBytes (b : List Nat)
  | goSlice (xs : List Value)
  | goUnsupported (ty : String)
end

/-- A BSON document as an association list (shared carrier of Map and Slice). -/
abbrev Pairs := List (Str × Value)

/-- Association-list lookup: Go map read `m[name]` / first matching key. -/
def alookup (ps : Pairs) (k : Str) : Option Value :=
  match ps with
  | [] => none
  | (k2, v) :: rest => if k2 = k then some v else alookup rest k

/-- Go map write `dst[name] = val`: overwrite in place if the key is present,
otherwise append.  Keeps the canonical insertion-order representation. -/
def mapInsert (m : Pairs) (k : Str) (v : Value) : Pairs :=
  match m with
  | [] => [(k, v)]
  | (k2, v2) :: rest => if k2 = k then (k, v) :: rest else (k2, v2) :: mapInsert rest k v

/-- Build a Map from decoded (name, value) pairs in wire order. -/
def mapFromPairs (ps : Pairs) : Pairs :=
  ps.foldl (fun m p => mapInsert m p.1 p.2) []

/-- Keys of an association list, in order. -/
def keysOf (ps : Pairs) : List Str := ps.map Prod.fst

/-- True when no key occurs twice. -/
def nodupKeys : Pairs → Bool
  | [] => true
  | (k, _) :: rest => !(rest.any (fun p => p.1 = k)) && nodupKeys rest

end Bson

namespace Bson

/-- Encode-side errors (encode.go builds these with fmt.Errorf; the dotted
path argument only feeds the message text and is dropped here). -/
inductive EErr : Type where
  | cannotEncode (ty : String)
  | objectIdLen
  | dbPointerLen
deriving DecidableEq

/-- writeCstring from encode.go: the bytes followed by a NUL terminator.
The source performs no check that s itself is NUL-free. -/
def writeCstring (s : Str) : List Nat := s ++ [0]

/-- writeString from encode.go: int32 length (payload+1), payload, NUL. -/
def writeString (s : Str) : List Nat := natToLE 4 (s.length + 1) ++ s ++ [0]

mutual
/-- encodeVal from encode.go: one element (tag byte, cstring name, payload).
The type-switch order is immaterial because the constructors are disjoint.
A `BSON` value is copied through verbatim.  The reflect fallback for native
slices builds an Array from the elements (`goSlice`); a value of any other
unlisted type is a "cannot encode %T" error (`goUnsupported`). -/
def encodeVal (name : Str) (v : Value) : Except EErr (List Nat) :=
  match v with
  | .float bits => .ok (tFloat :: writeCstring name ++ natToLE 8 bits)
  | .str s => .ok (tString :: writeCstring name ++ writeString s)
  | .map m => do
      let b ← encodeDoc m
      .ok (tEmbedded :: writeCstring name ++ b)
  | .slice s => do
      let b ← encodeDoc s
      .ok (tEmbedded :: writeCstring name ++ b)
  | .bson b => .ok b
  | .array a => encodeArray name a
  | .binary b =>
      .ok (tBinary :: writeCstring name ++ natToLE 4 b.length ++ 0 :: b)
  | .undefined => .ok (tUndefined :: writeCstring name)
  | .objectId b =>
      if b.length = 12 then .ok (tObjectId :: writeCstring name ++ b)
      else .error .objectIdLen
  | .bool b => .ok (tBoolean :: writeCstring name ++ [if b then 1 else 0])
  | .utcDateTime ms => .ok (tUTCDateTime :: writeCstring name ++ intToLE8 ms)
  | .null => .ok (tNull :: writeCstring name)
  | .regexp pat opt =>
      .ok (tRegexp :: writeCstring name ++ writeCstring pat ++ writeCstring opt)
  | .dbPointer nm oid =>
      if oid.length = 12 then
        .ok (tDBPointer :: writeCstring name ++ writeString nm ++ oid)
      else .error .dbPointerLen
  | .javascript s => .ok (tJavascript :: writeCstring name ++ writeString s)
  | .symbol s => .ok (tSymbol :: writeCstring name ++ writeString s)
  | .javascriptScope js scope => do
      let sb ← encodeDoc scope
      let ws := writeString js
      .ok (tJavascriptScope :: writeCstring name ++
           natToLE 4 (4 + ws.length + sb.length) ++ ws ++ sb)
  | .int32 n => .ok (tInt32 :: writeCstring name ++ intToLE4 n)
  | .timestamp n => .ok (tTimestamp :: writeCstring name ++ intToLE8 n)
  | .int64 n => .ok (tInt64 :: writeCstring name ++ intToLE8 n)
  | .minKey => .ok (tMinKey :: writeCstring name)
  | .maxKey => .ok (tMaxKey :: writeCstring name)
  | .goNil => .ok (tNull :: writeCstring name)
  | .goBool b => .ok (tBoolean :: writeCstring name ++ [if b then 1 else 0])
  | .goInt8 n => .ok (tInt32 :: writeCstring name ++ intToLE4 n)
  | .goInt16 n => .ok (tInt32 :: writeCstring name ++ intToLE4 n)
  | .goInt32 n => .ok (tInt32 :: writeCstring name ++ intToLE4 n)
  | .goInt n => .ok (tInt64 :: writeCstring name ++ intToLE8 n)
  | .goInt64 n => .ok (tInt64 :: writeCstring name ++ intToLE8 n)
  | .goFloat64 bits => .ok (tFloat :: writeCstring name ++ natToLE 8 bits)
  | .goString s => .ok (tString :: writeCstring name ++ writeString s)
  | .goTime ns =>
      .ok (tUTCDateTime :: writeCstring name ++
           intToLE8 (((ns.tdiv 1000).tdiv 1000)))
  | .goBytes b =>
      .ok (tBinary :: writeCstring name ++ natToLE 4 b.length ++ 0 :: b)
  | .goSlice xs => encodeArray name xs
  | .goUnsupported ty => .error (.cannotEncode ty)
termination_by (sizeOf v, 0)

/-- Shared body of encodeMap/encodeSlice from encode.go: 4-byte size
placeholder patched to the total length, the encoded elements, a NUL. -/
def encodeDoc (ps : Pairs) : Except EErr (List Nat) := do
  let body ← encodePairs ps
  .ok (natToLE 4 (4 + body.length + 1) ++ body ++ [0])
termination_by (sizeOf ps, 2)

/-- The element loop shared by encodeMap (range over the Map, here: list
order) and encodeSlice (slice order). -/
def encodePairs (ps : Pairs) : Except EErr (List Nat) :=
  match ps with
  | [] => .ok []
  | (k, v) :: rest => do
      let e ← encodeVal k v
      let r ← encodePairs rest
      .ok (e ++ r)
termination_by (sizeOf ps, 1)

/-- encodeArray from encode.go.  An empty Array writes NOTHING (the function
returns before emitting the tag byte); otherwise the array is a document with
decimal keys 0,1,2,... -/
def encodeArray (name : Str) (a : List Value) : Except EErr (List Nat) :=
  match a with
  | [] => .ok []
  | x :: rest => do
      let body ← encodeItems 0 (x :: rest)
      .ok (tArray :: writeCstring name ++
           natToLE 4 (4 + body.length + 1) ++ body ++ [0])
termination_by (sizeOf a, 2)

/-- The element loop of encodeArray: element i is encoded under the key
strconv.Itoa(i). -/
def encodeItems (i : Nat) (l : List Value) : Except EErr (List Nat) :=
  match l with
  | [] => .ok []
  | v :: rest => do
      let e ← encodeVal (natToDecStr i) v
      let r ← encodeItems (i + 1) rest
      .ok (e ++ r)
termination_by (sizeOf l, 1)
end

/-- Map.Encode from bson.go. -/
def encodeMap (m : Pairs) : Except EErr (List Nat) := encodeDoc m

/-- Slice.Encode from bson.go. -/
def encodeSlice (s : Pairs) : Except EErr (List Nat) := encodeDoc s

end Bson

namespace Bson

/-- The Go run-time panics the decoder, ReadOne or assign can hit:
make([]byte, n) with negative n; PutUint32 into a buffer shorter than 4;
reflect.Value.SetBytes on a slice whose elements are not bytes;
reflect.Value.Elem on a non-pointer non-interface value;
reflect.Value.SetInt overflowing the destination width. -/
inductive PanicKind : Type where
  | makeSliceNeg
  | putUint32Range
  | setBytesElem
  | reflectElem
  | setIntRange
deriving DecidableEq

/-- Decode-side errors.  `eof` stands for any io error from the byte source
(EOF / unexpected EOF), `tooLarge` for "Doc exceeded maximum size.",
`strTooLarge` for the string sanity check, `badTag` for "Unsupported type",
and `panicked` records a Go panic recovered at a decode entry point. -/
inductive DErr : Type where
  | eof
  | tooLarge
  | strTooLarge
  | badTag (t : Nat)
  | panicked (k : PanicKind)
deriving DecidableEq

/-- readCstring from decode.go: bytes up to and excluding the first NUL. -/
def readCstring : List Nat → Except DErr (Str × List Nat)
  | [] => .error .eof
  | x :: xs =>
    if x = 0 then .ok ([], xs)
    else
      match readCstring xs with
      | .error e => .error e
      | .ok (s, r) => .ok (x :: s, r)

/-- One byte from the source (bufio.Reader.ReadByte). -/
def readByte : List Nat → Except DErr (Nat × List Nat)
  | [] => .error .eof
  | x :: xs => .ok (x, xs)

/-- readInt32 from decode.go: 4 bytes little endian, signed. -/
def readInt32 : List Nat → Except DErr (Int × List Nat)
  | b0 :: b1 :: b2 :: b3 :: rest => .ok (toSigned32 (fromLE [b0, b1, b2, b3]), rest)
  | _ => .error .eof

/-- readInt64 from decode.go: 8 bytes little endian, signed. -/
def readInt64 : List Nat → Except DErr (Int × List Nat)
  | b0 :: b1 :: b2 :: b3 :: b4 :: b5 :: b6 :: b7 :: rest =>
      .ok (toSigned64 (fromLE [b0, b1, b2, b3, b4, b5, b6, b7]), rest)
  | _ => .error .eof

/-- io.ReadFull into a buffer of n bytes. -/
def readN (n : Nat) (b : List Nat) : Except DErr (List Nat × List Nat) :=
  if n ≤ b.length then .ok (b.take n, b.drop n) else .error .eof

/-- readString from decode.go (16 MiB copy): int32 length, that many bytes,
drop the trailing NUL.  A zero length returns "" without consuming payload; a
length above the ceiling is the sanity-check error; a negative length would
panic in make([]byte, sLen). -/
def readString (b : List Nat) : Except DErr (Str × List Nat) :=
  match readInt32 b with
  | .error e => .error e
  | .ok (sLen, r) =>
    if sLen = 0 then .ok ([], r)
    else if sLen > maxDocLen then .error .strTooLarge
    else if sLen < 0 then .error (.panicked .makeSliceNeg)
    else
      match readN sLen.toNat r with
      | .error e => .error e
      | .ok (bytes, r2) => .ok (bytes.dropLast, r2)

/-- The document-header step shared by decodeMap/decodeSlice: read the int32
length, reject lengths above the ceiling, and split off the body
(io.LimitReader(rd, docLen-4); a non-positive limit yields an empty body). -/
def docSpan (b : List Nat) : Except DErr (List Nat × List Nat) :=
  match readInt32 b with
  | .error e => .error e
  | .ok (docLen, r) =>
    if docLen > maxDocLen then .error .tooLarge
    else .ok (r.take (docLen - 4).toNat, r.drop (docLen - 4).toNat)

/-- Result of ReadOne: a raw document plus the rest of the stream, an error,
or a Go run-time panic (ReadOne has no recover, so its panics propagate). -/
inductive ROut : Type where
  | ok (doc rest : List Nat)
  | err (e : DErr)
  | panic (k : PanicKind)
deriving DecidableEq

/-- ReadOne from decode.go: read the int32 length; reject lengths above the
ceiling; then buf := make([]byte, docLen) (panics for negative docLen),
binary.LittleEndian.PutUint32(buf, ...) (panics for docLen < 4 because the
buffer is too short), and io.ReadFull for the remaining docLen-4 bytes. -/
def readOneCore (b : List Nat) : ROut :=
  match readInt32 b with
  | .error e => .err e
  | .ok (docLen, r) =>
    if docLen > maxDocLen then .err .tooLarge
    else if docLen < 0 then .panic .makeSliceNeg
    else if docLen < 4 then .panic .putUint32Range
    else if (docLen - 4).toNat ≤ r.length then
      .ok (natToLE 4 docLen.toNat ++ r.take (docLen - 4).toNat)
          (r.drop (docLen - 4).toNat)
    else .err .eof

/-- Public ReadOne. -/
def ReadOne (b : List Nat) : ROut := readOneCore b

/-- decodeArray's post-processing: the array body was decoded as a Map;
collect its keys, sort them with sort.Strings, and emit the values in that
order (every sorted key is a key of the map, so the lookup always hits). -/
def arrayFromDoc (doc : Pairs) : List Value :=
  (sortStrs (keysOf doc)).filterMap (fun k => alookup doc k)

end Bson

namespace Bson

theorem readCstring_length {b : List Nat} {s : Str} {r : List Nat}
    (h : readCstring b = .ok (s, r)) : r.length < b.length := by
  induction b generalizing s r with
  | nil => simp [readCstring] at h
  | cons x xs ih =>
    by_cases hx : x = 0
    · simp [readCstring, hx] at h
      obtain ⟨_, h2⟩ := h
      subst h2; simp
    · simp only [readCstring, if_neg hx] at h
      cases h2 : readCstring xs with
      | error e => rw [h2] at h; simp at h
      | ok p =>
        obtain ⟨t, r2⟩ := p
        rw [h2] at h
        simp at h
        obtain ⟨_, h4⟩ := h
        subst h4
        have := ih h2
        simp; omega

theorem readByte_length {b : List Nat} {x : Nat} {r : List Nat}
    (h : readByte b = .ok (x, r)) : r.length < b.length := by
  cases b with
  | nil => simp [readByte] at h
  | cons y ys => simp [readByte] at h; obtain ⟨_, h2⟩ := h; subst h2; simp

theorem readInt32_length {b : List Nat} {i : Int} {r : List Nat}
    (h : readInt32 b = .ok (i, r)) : r.length + 4 = b.length := by
  match b with
  | [] | [_] | [_, _] | [_, _, _] => simp [readInt32] at h
  | b0 :: b1 :: b2 :: b3 :: rest =>
    simp [readInt32] at h
    obtain ⟨_, h2⟩ := h
    subst h2; simp

theorem readInt64_length {b : List Nat} {i : Int} {r : List Nat}
    (h : readInt64 b = .ok (i, r)) : r.length + 8 = b.length := by
  match b with
  | [] | [_] | [_, _] | [_, _, _] | [_, _, _, _] | [_, _, _, _, _]
  | [_, _, _, _, _, _] | [_, _, _, _, _, _, _] => simp [readInt64] at h
  | b0 :: b1 :: b2 :: b3 :: b4 :: b5 :: b6 :: b7 :: rest =>
    simp [readInt64] at h
    obtain ⟨_, h2⟩ := h
    subst h2; simp

theorem readN_length {n : Nat} {b : List Nat} {x r : List Nat}
    (h : readN n b = .ok (x, r)) : r.length ≤ b.length := by
  simp only [readN] at h
  split at h
  · simp at h
    obtain ⟨_, h2⟩ := h
    subst h2; simp
  · simp at h

theorem readString_length {b : List Nat} {s : Str} {r : List Nat}
    (h : readString b = .ok (s, r)) : r.length < b.length := by
  simp only [readString] at h
  cases h1 : readInt32 b with
  | error e => rw [h1] at h; simp at h
  | ok p =>
    obtain ⟨sLen, r1⟩ := p
    rw [h1] at h
    have hlen := readInt32_length h1
    simp only [] at h
    split at h
    · simp at h; obtain ⟨_, h2⟩ := h; subst h2; omega
    · split at h
      · simp at h
      · split at h
        · simp at h
        · cases h2 : readN sLen.toNat r1 with
          | error e => rw [h2] at h; simp at h
          | ok q =>
            obtain ⟨bytes, r2⟩ := q
            rw [h2] at h
            simp at h
            obtain ⟨_, h3⟩ := h
            subst h3
            have := readN_length h2
            omega

theorem docSpan_length {b : List Nat} {body rest : List Nat}
    (h : docSpan b = .ok (body, rest)) :
    body.length < b.length ∧ rest.length < b.length := by
  simp only [docSpan] at h
  cases h1 : readInt32 b with
  | error e => rw [h1] at h; simp at h
  | ok p =>
    obtain ⟨docLen, r1⟩ := p
    rw [h1] at h
    have hlen := readInt32_length h1
    simp only [] at h
    split at h
    · simp at h
    · simp at h
      obtain ⟨h2, h3⟩ := h
      subst h2; subst h3
      constructor
      · have := List.length_take ((docLen - 4).toNat) r1
        simp at this ⊢; omega
      · have := List.length_drop ((docLen - 4).toNat) r1
        simp at this ⊢; omega

theorem readOneCore_length {b : List Nat} {doc rest : List Nat}
    (h : readOneCore b = .ok doc rest) : rest.length < b.length := by
  simp only [readOneCore] at h
  cases h1 : readInt32 b with
  | error e => rw [h1] at h; simp at h
  | ok p =>
    obtain ⟨docLen, r1⟩ := p
    rw [h1] at h
    have hlen := readInt32_length h1
    simp only [] at h
    split at h
    · simp at h
    · split at h
      · simp at h
      · split at h
        · simp at h
        · split at h
          · simp at h
            obtain ⟨_, h3⟩ := h
            subst h3
            have := List.length_drop ((docLen - 4).toNat) r1
            omega
          · simp at h

end Bson

namespace Bson

/-- decodeFloat from decode.go: cstring name, 8 bytes assembled LSB-first. -/
def decodeFloat (b : List Nat) : Except DErr (Str × Value × List Nat) :=
  match readCstring b with
  | .error e => .error e
  | .ok (name, r1) =>
    match readN 8 r1 with
    | .error e => .error e
    | .ok (bytes, r2) => .ok (name, .float (fromLE bytes), r2)

/-- decodeString from decode.go. -/
def decodeString (b : List Nat) : Except DErr (Str × Value × List Nat) :=
  match readCstring b with
  | .error e => .error e
  | .ok (name, r1) =>
    match readString r1 with
    | .error e => .error e
    | .ok (s, r2) => .ok (name, .str s, r2)

/-- decodeBinary from decode.go: name, int32 length, one subtype byte that is
discarded, then the payload.  make([]byte, dataLen) panics when the declared
length is negative. -/
def decodeBinary (b : List Nat) : Except DErr (Str × Value × List Nat) :=
  match readCstring b with
  | .error e => .error e
  | .ok (name, r1) =>
    match readInt32 r1 with
    | .error e => .error e
    | .ok (dataLen, r2) =>
      match readByte r2 with
      | .error e => .error e
      | .ok (_, r3) =>
        if dataLen < 0 then .error (.panicked .makeSliceNeg)
        else
          match readN dataLen.toNat r3 with
          | .error e => .error e
          | .ok (bytes, r4) => .ok (name, .binary bytes, r4)

/-- decodeBool from decode.go: the value is true exactly when the byte is 1. -/
def decodeBool (b : List Nat) : Except DErr (Str × Value × List Nat) :=
  match readCstring b with
  | .error e => .error e
  | .ok (name, r1) =>
    match readByte r1 with
    | .error e => .error e
    | .ok (x, r2) => .ok (name, .bool (x = 1), r2)

/-- decodeDBPointer from decode.go: name, length-prefixed Name, 12 id bytes. -/
def decodeDBPointer (b : List Nat) : Except DErr (Str × Value × List Nat) :=
  match readCstring b with
  | .error e => .error e
  | .ok (name, r1) =>
    match readString r1 with
    | .error e => .error e
    | .ok (nm, r2) =>
      match readN 12 r2 with
      | .error e => .error e
      | .ok (oid, r3) => .ok (name, .dbPointer nm oid, r3)

/-- decodeInt32 from decode.go. -/
def decodeInt32 (b : List Nat) : Except DErr (Str × Value × List Nat) :=
  match readCstring b with
  | .error e => .error e
  | .ok (name, r1) =>
    match readInt32 r1 with
    | .error e => .error e
    | .ok (i, r2) => .ok (name, .int32 i, r2)

/-- decodeInt64 from decode.go. -/
def decodeInt64 (b : List Nat) : Except DErr (Str × Value × List Nat) :=
  match readCstring b with
  | .error e => .error e
  | .ok (name, r1) =>
    match readInt64 r1 with
    | .error e => .error e
    | .ok (i, r2) => .ok (name, .int64 i, r2)

/-- decodeJavascript from decode.go. -/
def decodeJavascript (b : List Nat) : Except DErr (Str × Value × List Nat) :=
  match readCstring b with
  | .error e => .error e
  | .ok (name, r1) =>
    match readString r1 with
    | .error e => .error e
    | .ok (s, r2) => .ok (name, .javascript s, r2)

/-- decodeSymbol from decode.go. -/
def decodeSymbol (b : List Nat) : Except DErr (Str × Value × List Nat) :=
  match readCstring b with
  | .error e => .error e
  | .ok (name, r1) =>
    match readString r1 with
    | .error e => .error e
    | .ok (s, r2) => .ok (name, .symbol s, r2)

/-- decodeTimestamp from decode.go. -/
def decodeTimestamp (b : List Nat) : Except DErr (Str × Value × List Nat) :=
  match readCstring b with
  | .error e => .error e
  | .ok (name, r1) =>
    match readInt64 r1 with
    | .error e => .error e
    | .ok (i, r2) => .ok (name, .timestamp i, r2)

/-- decodeUTCDateTime from decode.go. -/
def decodeUTCDateTime (b : List Nat) : Except DErr (Str × Value × List Nat) :=
  match readCstring b with
  | .error e => .error e
  | .ok (name, r1) =>
    match readInt64 r1 with
    | .error e => .error e
    | .ok (i, r2) => .ok (name, .utcDateTime i, r2)

/-- decodeObjectId from decode.go: name then 12 id bytes. -/
def decodeObjectId (b : List Nat) : Except DErr (Str × Value × List Nat) :=
  match readCstring b with
  | .error e => .error e
  | .ok (name, r1) =>
    match readN 12 r1 with
    | .error e => .error e
    | .ok (oid, r2) => .ok (name, .objectId oid, r2)

/-- decodeRegexp from decode.go: name, pattern cstring, options cstring. -/
def decodeRegexp (b : List Nat) : Except DErr (Str × Value × List Nat) :=
  match readCstring b with
  | .error e => .error e
  | .ok (name, r1) =>
    match readCstring r1 with
    | .error e => .error e
    | .ok (pat, r2) =>
      match readCstring r2 with
      | .error e => .error e
      | .ok (opt, r3) => .ok (name, .regexp pat opt, r3)

/-- decodeUndefined from decode.go: name only. -/
def decodeUndefined (b : List Nat) : Except DErr (Str × Value × List Nat) :=
  match readCstring b with
  | .error e => .error e
  | .ok (name, r1) => .ok (name, .undefined, r1)

/-- decodeNull from decode.go: name only. -/
def decodeNull (b : List Nat) : Except DErr (Str × Value × List Nat) :=
  match readCstring b with
  | .error e => .error e
  | .ok (name, r1) => .ok (name, .null, r1)

/-- decodeMinKey from decode.go: name only. -/
def decodeMinKey (b : List Nat) : Except DErr (Str × Value × List Nat) :=
  match readCstring b with
  | .error e => .error e
  | .ok (name, r1) => .ok (name, .minKey, r1)

/-- decodeMaxKey from decode.go: name only. -/
def decodeMaxKey (b : List Nat) : Except DErr (Str × Value × List Nat) :=
  match readCstring b with
  | .error e => .error e
  | .ok (name, r1) => .ok (name, .maxKey, r1)

end Bson

namespace Bson

theorem decodeFloat_length {b : List Nat} {nm : Str} {v : Value} {r : List Nat}
    (h : decodeFloat b = .ok (nm, v, r)) : r.length < b.length := by
  simp only [decodeFloat] at h
  cases h1 : readCstring b with
  | error e => rw [h1] at h; simp at h
  | ok p1 =>
    obtain ⟨name, r1⟩ := p1
    rw [h1] at h
    simp only [] at h
    cases h2 : readN 8 r1 with
    | error e => rw [h2] at h; simp at h
    | ok p2 =>
      obtain ⟨bytes, r2⟩ := p2
      rw [h2] at h
      simp only [] at h
      simp at h
      obtain ⟨h7, h8, h9⟩ := h
      subst h9
      have l1 := readCstring_length h1
      have l2 := readN_length h2
      omega

theorem decodeString_length {b : List Nat} {nm : Str} {v : Value} {r : List Nat}
    (h : decodeString b = .ok (nm, v, r)) : r.length < b.length := by
  simp only [decodeString] at h
  cases h1 : readCstring b with
  | error e => rw [h1] at h; simp at h
  | ok p1 =>
    obtain ⟨name, r1⟩ := p1
    rw [h1] at h
    simp only [] at h
    cases h2 : readString r1 with
    | error e => rw [h2] at h; simp at h
    | ok p2 =>
      obtain ⟨s, r2⟩ := p2
      rw [h2] at h
      simp only [] at h
      simp at h
      obtain ⟨h7, h8, h9⟩ := h
      subst h9
      have l1 := readCstring_length h1
      have l2 := readString_length h2
      omega

theorem decodeBinary_length {b : List Nat} {nm : Str} {v : Value} {r : List Nat}
    (h : decodeBinary b = .ok (nm, v, r)) : r.length < b.length := by
  simp only [decodeBinary] at h
  cases h1 : readCstring b with
  | error e => rw [h1] at h; simp at h
  | ok p1 =>
    obtain ⟨name, r1⟩ := p1
    rw [h1] at h
    simp only [] at h
    cases h2 : readInt32 r1 with
    | error e => rw [h2] at h; simp at h
    | ok p2 =>
      obtain ⟨dataLen, r2⟩ := p2
      rw [h2] at h
      simp only [] at h
      cases h3 : readByte r2 with
      | error e => rw [h3] at h; simp at h
      | ok p3 =>
        obtain ⟨st, r3⟩ := p3
        rw [h3] at h
        simp only [] at h
        split at h
        case isTrue => simp at h
        case isFalse =>
          cases h4 : readN dataLen.toNat r3 with
          | error e => rw [h4] at h; simp at h
          | ok p4 =>
            obtain ⟨bytes, r4⟩ := p4
            rw [h4] at h
            simp only [] at h
            simp at h
            obtain ⟨h7, h8, h9⟩ := h
            subst h9
            have l1 := readCstring_length h1
            have l2 := readInt32_length h2
            have l3 := readByte_length h3
            have l4 := readN_length h4
            omega

theorem decodeBool_length {b : List Nat} {nm : Str} {v : Value} {r : List Nat}
    (h : decodeBool b = .ok (nm, v, r)) : r.length < b.length := by
  simp only [decodeBool] at h
  cases h1 : readCstring b with
  | error e => rw [h1] at h; simp at h
  | ok p1 =>
    obtain ⟨name, r1⟩ := p1
    rw [h1] at h
    simp only [] at h
    cases h2 : readByte r1 with
    | error e => rw [h2] at h; simp at h
    | ok p2 =>
      obtain ⟨x, r2⟩ := p2
      rw [h2] at h
      simp only [] at h
      simp at h
      obtain ⟨h7, h8, h9⟩ := h
      subst h9
      have l1 := readCstring_length h1
      have l2 := readByte_length h2
      omega

theorem decodeDBPointer_length {b : List Nat} {nm : Str} {v : Value} {r : List Nat}
    (h : decodeDBPointer b = .ok (nm, v, r)) : r.length < b.length := by
  simp only [decodeDBPointer] at h
  cases h1 : readCstring b with
  | error e => rw [h1] at h; simp at h
  | ok p1 =>
    obtain ⟨name, r1⟩ := p1
    rw [h1] at h
    simp only [] at h
    cases h2 : readString r1 with
    | error e => rw [h2] at h; simp at h
    | ok p2 =>
      obtain ⟨dbnm, r2⟩ := p2
      rw [h2] at h
      simp only [] at h
      cases h3 : readN 12 r2 with
      | error e => rw [h3] at h; simp at h
      | ok p3 =>
        obtain ⟨oid, r3⟩ := p3
        rw [h3] at h
        simp only [] at h
        simp at h
        obtain ⟨h7, h8, h9⟩ := h
        subst h9
        have l1 := readCstring_length h1
        have l2 := readString_length h2
        have l3 := readN_length h3
        omega

theorem decodeInt32_length {b : List Nat} {nm : Str} {v : Value} {r : List Nat}
    (h : decodeInt32 b = .ok (nm, v, r)) : r.length < b.length := by
  simp only [decodeInt32] at h
  cases h1 : readCstring b with
  | error e => rw [h1] at h; simp at h
  | ok p1 =>
    obtain ⟨name, r1⟩ := p1
    rw [h1] at h
    simp only [] at h
    cases h2 : readInt32 r1 with
    | error e => rw [h2] at h; simp at h
    | ok p2 =>
      obtain ⟨i, r2⟩ := p2
      rw [h2] at h
      simp only [] at h
      simp at h
      obtain ⟨h7, h8, h9⟩ := h
      subst h9
      have l1 := readCstring_length h1
      have l2 := readInt32_length h2
      omega

theorem decodeInt64_length {b : List Nat} {nm : Str} {v : Value} {r : List Nat}
    (h : decodeInt64 b = .ok (nm, v, r)) : r.length < b.length := by
  simp only [decodeInt64] at h
  cases h1 : readCstring b with
  | error e => rw [h1] at h; simp at h
  | ok p1 =>
    obtain ⟨name, r1⟩ := p1
    rw [h1] at h
    simp only [] at h
    cases h2 : readInt64 r1 with
    | error e => rw [h2] at h; simp at h
    | ok p2 =>
      obtain ⟨i, r2⟩ := p2
      rw [h2] at h
      simp only [] at h
      simp at h
      obtain ⟨h7, h8, h9⟩ := h
      subst h9
      have l1 := readCstring_length h1
      have l2 := readInt64_length h2
      omega

theorem decodeJavascript_length {b : List Nat} {nm : Str} {v : Value} {r : List Nat}
    (h : decodeJavascript b = .ok (nm, v, r)) : r.length < b.length := by
  simp only [decodeJavascript] at h
  cases h1 : readCstring b with
  | error e => rw [h1] at h; simp at h
  | ok p1 =>
    obtain ⟨name, r1⟩ := p1
    rw [h1] at h
    simp only [] at h
    cases h2 : readString r1 with
    | error e => rw [h2] at h; simp at h
    | ok p2 =>
      obtain ⟨s, r2⟩ := p2
      rw [h2] at h
      simp only [] at h
      simp at h
      obtain ⟨h7, h8, h9⟩ := h
      subst h9
      have l1 := readCstring_length h1
      have l2 := readString_length h2
      omega

theorem decodeSymbol_length {b : List Nat} {nm : Str} {v : Value} {r : List Nat}
    (h : decodeSymbol b = .ok (nm, v, r)) : r.length < b.length := by
  simp only [decodeSymbol] at h
  cases h1 : readCstring b with
  | error e => rw [h1] at h; simp at h
  | ok p1 =>
    obtain ⟨name, r1⟩ := p1
    rw [h1] at h
    simp only [] at h
    cases h2 : readString r1 with
    | error e => rw [h2] at h; simp at h
    | ok p2 =>
      obtain ⟨s, r2⟩ := p2
      rw [h2] at h
      simp only [] at h
      simp at h
      obtain ⟨h7, h8, h9⟩ := h
      subst h9
      have l1 := readCstring_length h1
      have l2 := readString_length h2
      omega

theorem decodeTimestamp_length {b : List Nat} {nm : Str} {v : Value} {r : List Nat}
    (h : decodeTimestamp b = .ok (nm, v, r)) : r.length < b.length := by
  simp only [decodeTimestamp] at h
  cases h1 : readCstring b with
  | error e => rw [h1] at h; simp at h
  | ok p1 =>
    obtain ⟨name, r1⟩ := p1
    rw [h1] at h
    simp only [] at h
    cases h2 : readInt64 r1 with
    | error e => rw [h2] at h; simp at h
    | ok p2 =>
      obtain ⟨i, r2⟩ := p2
      rw [h2] at h
      simp only [] at h
      simp at h
      obtain ⟨h7, h8, h9⟩ := h
      subst h9
      have l1 := readCstring_length h1
      have l2 := readInt64_length h2
      omega

theorem decodeUTCDateTime_length {b : List Nat} {nm : Str} {v : Value} {r : List Nat}
    (h : decodeUTCDateTime b = .ok (nm, v, r)) : r.length < b.length := by
  simp only [decodeUTCDateTime] at h
  cases h1 : readCstring b with
  | error e => rw [h1] at h; simp at h
  | ok p1 =>
    obtain ⟨name, r1⟩ := p1
    rw [h1] at h
    simp only [] at h
    cases h2 : readInt64 r1 with
    | error e => rw [h2] at h; simp at h
    | ok p2 =>
      obtain ⟨i, r2⟩ := p2
      rw [h2] at h
      simp only [] at h
      simp at h
      obtain ⟨h7, h8, h9⟩ := h
      subst h9
      have l1 := readCstring_length h1
      have l2 := readInt64_length h2
      omega

theorem decodeObjectId_length {b : List Nat} {nm : Str} {v : Value} {r : List Nat}
    (h : decodeObjectId b = .ok (nm, v, r)) : r.length < b.length := by
  simp only [decodeObjectId] at h
  cases h1 : readCstring b with
  | error e => rw [h1] at h; simp at h
  | ok p1 =>
    obtain ⟨name, r1⟩ := p1
    rw [h1] at h
    simp only [] at h
    cases h2 : readN 12 r1 with
    | error e => rw [h2] at h; simp at h
    | ok p2 =>
      obtain ⟨oid, r2⟩ := p2
      rw [h2] at h
      simp only [] at h
      simp at h
      obtain ⟨h7, h8, h9⟩ := h
      subst h9
      have l1 := readCstring_length h1
      have l2 := readN_length h2
      omega

theorem decodeRegexp_length {b : List Nat} {nm : Str} {v : Value} {r : List Nat}
    (h : decodeRegexp b = .ok (nm, v, r)) : r.length < b.length := by
  simp only [decodeRegexp] at h
  cases h1 : readCstring b with
  | error e => rw [h1] at h; simp at h
  | ok p1 =>
    obtain ⟨name, r1⟩ := p1
    rw [h1] at h
    simp only [] at h
    cases h2 : readCstring r1 with
    | error e => rw [h2] at h; simp at h
    | ok p2 =>
      obtain ⟨pat, r2⟩ := p2
      rw [h2] at h
      simp only [] at h
      cases h3 : readCstring r2 with
      | error e => rw [h3] at h; simp at h
      | ok p3 =>
        obtain ⟨opt, r3⟩ := p3
        rw [h3] at h
        simp only [] at h
        simp at h
        obtain ⟨h7, h8, h9⟩ := h
        subst h9
        have l1 := readCstring_length h1
        have l2 := readCstring_length h2
        have l3 := readCstring_length h3
        omega

theorem decodeUndefined_length {b : List Nat} {nm : Str} {v : Value} {r : List Nat}
    (h : decodeUndefined b = .ok (nm, v, r)) : r.length < b.length := by
  simp only [decodeUndefined] at h
  cases h1 : readCstring b with
  | error e => rw [h1] at h; simp at h
  | ok p1 =>
    obtain ⟨name, r1⟩ := p1
    rw [h1] at h
    simp only [] at h
    simp at h
    obtain ⟨h7, h8, h9⟩ := h
    subst h9
    exact readCstring_length h1

theorem decodeNull_length {b : List Nat} {nm : Str} {v : Value} {r : List Nat}
    (h : decodeNull b = .ok (nm, v, r)) : r.length < b.length := by
  simp only [decodeNull] at h
  cases h1 : readCstring b with
  | error e => rw [h1] at h; simp at h
  | ok p1 =>
    obtain ⟨name, r1⟩ := p1
    rw [h1] at h
    simp only [] at h
    simp at h
    obtain ⟨h7, h8, h9⟩ := h
    subst h9
    exact readCstring_length h1

theorem decodeMinKey_length {b : List Nat} {nm : Str} {v : Value} {r : List Nat}
    (h : decodeMinKey b = .ok (nm, v, r)) : r.length < b.length := by
  simp only [decodeMinKey] at h
  cases h1 : readCstring b with
  | error e => rw [h1] at h; simp at h
  | ok p1 =>
    obtain ⟨name, r1⟩ := p1
    rw [h1] at h
    simp only [] at h
    simp at h
    obtain ⟨h7, h8, h9⟩ := h
    subst h9
    exact readCstring_length h1

theorem decodeMaxKey_length {b : List Nat} {nm : Str} {v : Value} {r : List Nat}
    (h : decodeMaxKey b = .ok (nm, v, r)) : r.length < b.length := by
  simp only [decodeMaxKey] at h
  cases h1 : readCstring b with
  | error e => rw [h1] at h; simp at h
  | ok p1 =>
    obtain ⟨name, r1⟩ := p1
    rw [h1] at h
    simp only [] at h
    simp at h
    obtain ⟨h7, h8, h9⟩ := h
    subst h9
    exact readCstring_length h1

end Bson

namespace Bson

/-- The element loop shared by decodeMap and decodeSlice in decode.go: read a
tag byte, stop at 0x00, otherwise dispatch on the tag.  `isMap` selects the
target shape: it decides how an embedded document (tag 0x03) is decoded, Map
or Slice, exactly as the two Go functions differ; the element order is kept
here and the Map entry points collapse it with `mapFromPairs` (Go stores into
the map as it goes).  `nest` only affects tag 0x03: when false the embedded
document is captured raw with ReadOne (a panic there is recovered at the entry
points, hence mapped to `DErr.panicked`).  Arrays (0x04) and scopes (0x0F) are
always decoded recursively, as Maps, by decodeArray/decodeJavascriptScope. -/
def decodeElems (isMap nest : Bool) (b : List Nat) : Except DErr Pairs :=
  match b with
  | [] => .error .eof
  | t :: r =>
    if t = 0 then .ok []
    else if t = tFloat then
      match h1 : decodeFloat r with
      | .error e => .error e
      | .ok (name, v, r2) =>
        match decodeElems isMap nest r2 with
        | .error e => .error e
        | .ok ps => .ok ((name, v) :: ps)
    else if t = tString then
      match h1 : decodeString r with
      | .error e => .error e
      | .ok (name, v, r2) =>
        match decodeElems isMap nest r2 with
        | .error e => .error e
        | .ok ps => .ok ((name, v) :: ps)
    else if t = tEmbedded then
      match h1 : readCstring r with
      | .error e => .error e
      | .ok (name, r1) =>
        if nest then
          match h2 : docSpan r1 with
          | .error e => .error e
          | .ok (body, r2) =>
            match decodeElems isMap true body with
            | .error e => .error e
            | .ok inner =>
              match decodeElems isMap nest r2 with
              | .error e => .error e
              | .ok ps =>
                .ok ((name, if isMap then Value.map (mapFromPairs inner)
                            else Value.slice inner) :: ps)
        else
          match h2 : readOneCore r1 with
          | .err e => .error e
          | .panic k => .error (.panicked k)
          | .ok doc r2 =>
            match decodeElems isMap nest r2 with
            | .error e => .error e
            | .ok ps => .ok ((name, Value.bson doc) :: ps)
    else if t = tArray then
      match h1 : readCstring r with
      | .error e => .error e
      | .ok (name, r1) =>
        match h2 : docSpan r1 with
        | .error e => .error e
        | .ok (body, r2) =>
          match decodeElems true true body with
          | .error e => .error e
          | .ok inner =>
            match decodeElems isMap nest r2 with
            | .error e => .error e
            | .ok ps =>
              .ok ((name, Value.array (arrayFromDoc (mapFromPairs inner))) :: ps)
    else if t = tBinary then
      match h1 : decodeBinary r with
      | .error e => .error e
      | .ok (name, v, r2) =>
        match decodeElems isMap nest r2 with
        | .error e => .error e
        | .ok ps => .ok ((name, v) :: ps)
    else if t = tUndefined then
      match h1 : decodeUndefined r with
      | .error e => .error e
      | .ok (name, v, r2) =>
        match decodeElems isMap nest r2 with
        | .error e => .error e
        | .ok ps => .ok ((name, v) :: ps)
    else if t = tObjectId then
      match h1 : decodeObjectId r with
      | .error e => .error e
      | .ok (name, v, r2) =>
        match decodeElems isMap nest r2 with
        | .error e => .error e
        | .ok ps => .ok ((name, v) :: ps)
    else if t = tBoolean then
      match h1 : decodeBool r with
      | .error e => .error e
      | .ok (name, v, r2) =>
        match decodeElems isMap nest r2 with
        | .error e => .error e
        | .ok ps => .ok ((name, v) :: ps)
    else if t = tUTCDateTime then
      match h1 : decodeUTCDateTime r with
      | .error e => .error e
      | .ok (name, v, r2) =>
        match decodeElems isMap nest r2 with
        | .error e => .error e
        | .ok ps => .ok ((name, v) :: ps)
    else if t = tNull then
      match h1 : decodeNull r with
      | .error e => .error e
      | .ok (name, v, r2) =>
        match decodeElems isMap nest r2 with
        | .error e => .error e
        | .ok ps => .ok ((name, v) :: ps)
    else if t = tRegexp then
      match h1 : decodeRegexp r with
      | .error e => .error e
      | .ok (name, v, r2) =>
        match decodeElems isMap nest r2 with
        | .error e => .error e
        | .ok ps => .ok ((name, v) :: ps)
    else if t = tDBPointer then
      match h1 : decodeDBPointer r with
      | .error e => .error e
      | .ok (name, v, r2) =>
        match decodeElems isMap nest r2 with
        | .error e => .error e
        | .ok ps => .ok ((name, v) :: ps)
    else if t = tJavascript then
      match h1 : decodeJavascript r with
      | .error e => .error e
      | .ok (name, v, r2) =>
        match decodeElems isMap nest r2 with
        | .error e => .error e
        | .ok ps => .ok ((name, v) :: ps)
    else if t = tSymbol then
      match h1 : decodeSymbol r with
      | .error e => .error e
      | .ok (name, v, r2) =>
        match decodeElems isMap nest r2 with
        | .error e => .error e
        | .ok ps => .ok ((name, v) :: ps)
    else if t = tJavascriptScope then
      match h1 : readCstring r with
      | .error e => .error e
      | .ok (name, r1) =>
        match h2 : readInt32 r1 with
        | .error e => .error e
        | .ok (_, r2) =>
          match h3 : readString r2 with
          | .error e => .error e
          | .ok (js, r3) =>
            match h4 : docSpan r3 with
            | .error e => .error e
            | .ok (body, r4) =>
              match decodeElems true true body with
              | .error e => .error e
              | .ok inner =>
                match decodeElems isMap nest r4 with
                | .error e => .error e
                | .ok ps =>
                  .ok ((name, Value.javascriptScope js (mapFromPairs inner)) :: ps)
    else if t = tInt32 then
      match h1 : decodeInt32 r with
      | .error e => .error e
      | .ok (name, v, r2) =>
        match decodeElems isMap nest r2 with
        | .error e => .error e
        | .ok ps => .ok ((name, v) :: ps)
    else if t = tTimestamp then
      match h1 : decodeTimestamp r with
      | .error e => .error e
      | .ok (name, v, r2) =>
        match decodeElems isMap nest r2 with
        | .error e => .error e
        | .ok ps => .ok ((name, v) :: ps)
    else if t = tInt64 then
      match h1 : decodeInt64 r with
      | .error e => .error e
      | .ok (name, v, r2) =>
        match decodeElems isMap nest r2 with
        | .error e => .error e
        | .ok ps => .ok ((name, v) :: ps)
    else if t = tMinKey then
      match h1 : decodeMinKey r with
      | .error e => .error e
      | .ok (name, v, r2) =>
        match decodeElems isMap nest r2 with
        | .error e => .error e
        | .ok ps => .ok ((name, v) :: ps)
    else if t = tMaxKey then
      match h1 : decodeMaxKey r with
      | .error e => .error e
      | .ok (name, v, r2) =>
        match decodeElems isMap nest r2 with
        | .error e => .error e
        | .ok ps => .ok ((name, v) :: ps)
    else .error (.badTag t)
termination_by b.length
decreasing_by
  all_goals simp_wf
  all_goals
    first
      | (have l1 := decodeFloat_length h1; simp; omega)
      | (have l1 := decodeString_length h1; simp; omega)
      | (have l1 := decodeBinary_length h1; simp; omega)
      | (have l1 := decodeUndefined_length h1; simp; omega)
      | (have l1 := decodeObjectId_length h1; simp; omega)
      | (have l1 := decodeBool_length h1; simp; omega)
      | (have l1 := decodeUTCDateTime_length h1; simp; omega)
      | (have l1 := decodeNull_length h1; simp; omega)
      | (have l1 := decodeRegexp_length h1; simp; omega)
      | (have l1 := decodeDBPointer_length h1; simp; omega)
      | (have l1 := decodeJavascript_length h1; simp; omega)
      | (have l1 := decodeSymbol_length h1; simp; omega)
      | (have l1 := decodeInt32_length h1; simp; omega)
      | (have l1 := decodeTimestamp_length h1; simp; omega)
      | (have l1 := decodeInt64_length h1; simp; omega)
      | (have l1 := decodeMinKey_length h1; simp; omega)
      | (have l1 := decodeMaxKey_length h1; simp; omega)
      | (have l1 := readCstring_length h1
         have l2 := readOneCore_length h2
         simp; omega)
      | (have l1 := readCstring_length h1
         obtain ⟨l2, l3⟩ := docSpan_length h2
         simp; omega)
      | (have l1 := readCstring_length h1
         have l2 := readInt32_length h2
         have l3 := readString_length h3
         obtain ⟨l4, l5⟩ := docSpan_length h4
         simp; omega)

end Bson

namespace Bson

/-- decodeMap/decodeSlice document step: header (length check) then elements. -/
def decodeDoc (isMap nest : Bool) (b : List Nat) : Except DErr (Pairs × List Nat) :=
  match docSpan b with
  | .error e => .error e
  | .ok (body, rest) =>
    match decodeElems isMap nest body with
    | .error e => .error e
    | .ok ps => .ok (ps, rest)

/-- ReadMap from decode.go (the recover at the top turns panics into plain
errors; panics are already `DErr.panicked` values here). -/
def ReadMap (b : List Nat) : Except DErr Pairs :=
  match decodeDoc true true b with
  | .error e => .error e
  | .ok (ps, _) => .ok (mapFromPairs ps)

/-- ReadMapNoNest from decode.go. -/
def ReadMapNoNest (b : List Nat) : Except DErr Pairs :=
  match decodeDoc true false b with
  | .error e => .error e
  | .ok (ps, _) => .ok (mapFromPairs ps)

/-- ReadSlice from decode.go. -/
def ReadSlice (b : List Nat) : Except DErr Pairs :=
  match decodeDoc false true b with
  | .error e => .error e
  | .ok (ps, _) => .ok ps

/-- ReadSliceNoNest from decode.go. -/
def ReadSliceNoNest (b : List Nat) : Except DErr Pairs :=
  match decodeDoc false false b with
  | .error e => .error e
  | .ok (ps, _) => .ok ps

/-- NewObjectId from misc.go, as a function of its environment: the current
Unix time in seconds, the md5 hash of the hostname (only its first 3 bytes are
used; passed here as a byte list), the process id, and the value `cnt` of the
shared counter after the atomic increment (an int32).  Layout: 4 bytes big
endian int32 time, 3 hash bytes, 2 bytes big endian int16 pid, then the low 3
bytes (big endian) of uint32(cnt % 16777215) where % is Go's truncated
remainder. -/
def newObjectId (now : Int) (hostHash : List Nat) (pid : Int) (cnt : Int) :
    List Nat :=
  let timeBytes := (natToLE 4 (now.emod 4294967296).toNat).reverse
  let pidBytes := (natToLE 2 (pid.emod 65536).toNat).reverse
  let cntBytes := (natToLE 4 ((Int.tmod cnt 16777215).emod 4294967296).toNat).reverse
  timeBytes ++ hostHash.take 3 ++ pidBytes ++ cntBytes.drop 1

/-- isEmptyValue from encode.go (copied there from encoding/json), expressed
on the reflect kind of each `Value` constructor.  Struct kinds (the no-payload
wrappers, Regexp, DBPointer, JavascriptScope, time.Time) fall through to the
default false; a nil interface field has Kind Invalid after indirect, also
false.  val.Float() == 0 also holds for negative zero (bit pattern 2^63). -/
def isEmptyValue : Value → Bool
  | .float bits => bits = 0 || bits = 9223372036854775808
  | .str s => s.isEmpty
  | .map m => m.isEmpty
  | .slice s => s.isEmpty
  | .bson b => b.isEmpty
  | .array a => a.isEmpty
  | .binary b => b.isEmpty
  | .undefined => false
  | .objectId b => b.isEmpty
  | .bool b => !b
  | .utcDateTime ms => ms = 0
  | .null => false
  | .regexp _ _ => false
  | .dbPointer _ _ => false
  | .javascript s => s.isEmpty
  | .symbol s => s.isEmpty
  | .javascriptScope _ _ => false
  | .int32 n => n = 0
  | .timestamp n => n = 0
  | .int64 n => n = 0
  | .minKey => false
  | .maxKey => false
  | .goNil => false
  | .goBool b => !b
  | .goInt8 n => n = 0
  | .goInt16 n => n = 0
  | .goInt32 n => n = 0
  | .goInt n => n = 0
  | .goInt64 n => n = 0
  | .goFloat64 bits => bits = 0 || bits = 9223372036854775808
  | .goString s => s.isEmpty
  | .goTime _ => false
  | .goBytes b => b.isEmpty
  | .goSlice xs => xs.isEmpty
  | .goUnsupported _ => false

/-- One struct field as seen by encodeStruct: its declared name, whether it is
unexported (PkgPath != ""), the raw bson tag string ("" when absent), whether
the field held a nil pointer or nil interface — indirect then yields the
invalid zero reflect.Value, on which isEmptyValue returns false (no case of
its Kind switch matches) and fv.Interface() panics — and otherwise its
(already indirected) value. -/
structure StructField : Type where
  name : Str
  unexported : Bool
  tag : Str
  nilIndirect : Bool
  val : Value

/-- The bytes of "omitempty". -/
def omitemptyStr : Str := [111, 109, 105, 116, 101, 109, 112, 116, 121]

/-- The projection decision of encodeStruct's loop body for one field:
skip unexported fields; with a tag, split on ',': a leading "-" means skip,
a non-empty first token renames, and exactly two tokens whose second is
"omitempty" skip the field when its indirected value is empty.  A field that
held a nil pointer or interface is never empty here: isEmptyValue runs on the
invalid reflect.Value and returns false, so the field is NOT skipped. -/
def fieldEntry (f : StructField) : Option (Str × Value) :=
  if f.unexported then none
  else if f.tag = [] then some (f.name, f.val)
  else
    let tok := f.tag.splitOn 44
    let t0 := tok.headD []
    if t0 = [45] then none
    else
      let name := if t0 = [] then f.name else t0
      if tok.length = 2 && tok.getD 1 [] = omitemptyStr &&
          (!f.nilIndirect && isEmptyValue f.val)
      then none
      else some (name, f.val)

/-- Outcome of struct encoding: bytes, an encode error, or a Go panic
(fv.Interface() called on the invalid zero reflect.Value that indirect
produced from a nil pointer or interface field). -/
inductive SRes : Type where
  | ok (b : List Nat)
  | error (e : EErr)
  | panicked

/-- The field loop of encodeStruct from encode.go: every field the
projection does not skip first evaluates fv.Interface(), which panics when
the field was a nil pointer or interface; otherwise the element is encoded
exactly like a document pair. -/
def encodeStructFields (fields : List StructField) : SRes :=
  match fields with
  | [] => .ok []
  | f :: rest =>
    match fieldEntry f with
    | none => encodeStructFields rest
    | some (name, v) =>
      if f.nilIndirect then .panicked
      else
        match encodeVal name v with
        | .error e => .error e
        | .ok e =>
          match encodeStructFields rest with
          | .ok r => .ok (e ++ r)
          | other => other

/-- encodeStruct from encode.go: a 4-byte length placeholder, the field loop,
the terminating NUL, and the length patched to the buffer's size. -/
def encodeStruct (fields : List StructField) : SRes :=
  match encodeStructFields fields with
  | .ok body => .ok (natToLE 4 (4 + body.length + 1) ++ body ++ [0])
  | other => other

end Bson

namespace Bson

/-- A value the reach walk can hold: a document value, a native Go string
(produced by the Regexp / DBPointer / JavascriptScope field cases), or a whole
Slice element Pair (the Slice case of reach assigns the Pair, not its Val). -/
inductive Cur : Type where
  | cv (v : Value)
  | cstr (s : Str)
  | cpair (k : Str) (v : Value)

/-- Bytes of "Pattern". -/
def patternStr : Str := [80, 97, 116, 116, 101, 114, 110]
/-- Bytes of "Options". -/
def optionsStr : Str := [79, 112, 116, 105, 111, 110, 115]
/-- Bytes of "Name". -/
def nameFieldStr : Str := [78, 97, 109, 101]
/-- Bytes of "ObjectId". -/
def objectIdStr : Str := [79, 98, 106, 101, 99, 116, 73, 100]
/-- Bytes of "Javascript". -/
def javascriptStr : Str := [74, 97, 118, 97, 115, 99, 114, 105, 112, 116]
/-- Bytes of "Scope". -/
def scopeStr : Str := [83, 99, 111, 112, 101]

/-- reach from reach.go.  The scalar wrapper types listed in the first case of
the type switch return nil, and so does the default case (native values, raw
BSON, Pair); both are the catch-all arm here.  The Slice case sets the cursor
to the matching Pair itself (cur = v in the source, not v.Val). -/
def reach (cur : Cur) (dot : List Str) : Option Cur :=
  match dot with
  | [] => some cur
  | name :: rest =>
    match cur with
    | .cv (.map m) =>
      match alookup m name with
      | none => none
      | some a => reach (.cv a) rest
    | .cv (.slice s) =>
      match s.find? (fun p => p.1 = name) with
      | none => none
      | some p => reach (.cpair p.1 p.2) rest
    | .cv (.regexp pat opt) =>
      if name = patternStr then reach (.cstr pat) rest
      else if name = optionsStr then reach (.cstr opt) rest
      else none
    | .cv (.dbPointer nm oid) =>
      if name = nameFieldStr then reach (.cstr nm) rest
      else if name = objectIdStr then reach (.cv (.objectId oid)) rest
      else none
    | .cv (.javascriptScope js sc) =>
      if name = javascriptStr then reach (.cstr js) rest
      else if name = scopeStr then reach (.cv (.map sc)) rest
      else none
    | _ => none

/-- The scalar case list of reach's type switch (values with no sub-fields). -/
def isReachScalar : Cur → Bool
  | .cv (.float _) => true
  | .cv (.str _) => true
  | .cv (.array _) => true
  | .cv (.binary _) => true
  | .cv .undefined => true
  | .cv (.objectId _) => true
  | .cv (.bool _) => true
  | .cv (.utcDateTime _) => true
  | .cv .null => true
  | .cv (.javascript _) => true
  | .cv (.symbol _) => true
  | .cv (.int32 _) => true
  | .cv (.timestamp _) => true
  | .cv (.int64 _) => true
  | .cv .minKey => true
  | .cv .maxKey => true
  | _ => false

/-- A typed destination variable for assign, carrying its current contents
(Go: the value behind the pointer handed to Reach, after indirectAlloc). -/
inductive Dest : Type where
  | dFloat64 (bits : Nat)
  | dString (s : Str)
  | dBytes (b : List Nat)
  | dBool (b : Bool)
  | dInt32 (n : Int)
  | dInt64 (n : Int)
  | dTime (ns : Int)
  | dMap (m : Pairs)
  | dSlice (s : Pairs)
  | dArray (a : List Value)
  | dRegexp (pat opt : Str)
  | dDBPointer (nm : Str) (oid : List Nat)
  | dJsScope (js : Str) (scope : Pairs)

/-- The %T name of the destination's type, for assignError messages. -/
def destTyName : Dest → String
  | .dFloat64 _ => "float64"
  | .dString _ => "string"
  | .dBytes _ => "[]uint8"
  | .dBool _ => "bool"
  | .dInt32 _ => "int32"
  | .dInt64 _ => "int64"
  | .dTime _ => "time.Time"
  | .dMap _ => "bson.Map"
  | .dSlice _ => "bson.Slice"
  | .dArray _ => "bson.Array"
  | .dRegexp _ _ => "bson.Regexp"
  | .dDBPointer _ _ => "bson.DBPointer"
  | .dJsScope _ _ => "bson.JavascriptScope"

/-- Errors of Reach: the nil-destination guard, assignError ("cannot coerce
%T to %T."), or a reflect panic (Reach has no recover, so these abort). -/
inductive AErr : Type where
  | dstNil
  | cannotCoerce (srcTy dstTy : String)
  | panicked (k : PanicKind)
deriving DecidableEq

/-- int64 wrap-around of a Go multiplication result. -/
def wrap64 (x : Int) : Int :=
  (x + 9223372036854775808).emod 18446744073709551616 - 9223372036854775808

/-- assign from reach.go.  Each case requires the matching destination kind or
type; Undefined/Null/MinKey/MaxKey assign nothing; a source with no case in
the type switch (native strings, Pair, raw BSON, other native values) falls
through the switch and returns (true, nil) leaving the destination as is.
The Binary/ObjectId guard `dstrv.Kind() != reflect.Slice &&
dstrv.Elem().Kind() != reflect.Uint8` evaluates Elem() on non-slice
destinations (a panic) and calls SetBytes on any slice destination (a panic
unless the element type is a byte).  SetInt on an int32 destination panics if
the value overflows; UTCDateTime/Timestamp into time.Time store
time.Unix(0, int64(src)*1e3). -/
def assign (dst : Dest) (src : Cur) : Except AErr (Bool × Dest) :=
  match src with
  | .cv (.float bits) =>
    match dst with
    | .dFloat64 _ => .ok (true, .dFloat64 bits)
    | _ => .error (.cannotCoerce "bson.Float" (destTyName dst))
  | .cv (.str s) =>
    match dst with
    | .dString _ => .ok (true, .dString s)
    | _ => .error (.cannotCoerce "bson.String" (destTyName dst))
  | .cv (.map m) =>
    match dst with
    | .dMap _ => .ok (true, .dMap m)
    | _ => .error (.cannotCoerce "bson.Map" (destTyName dst))
  | .cv (.slice s) =>
    match dst with
    | .dSlice _ => .ok (true, .dSlice s)
    | _ => .error (.cannotCoerce "bson.Slice" (destTyName dst))
  | .cv (.array a) =>
    match dst with
    | .dArray _ => .ok (true, .dArray a)
    | _ => .error (.cannotCoerce "bson.Array" (destTyName dst))
  | .cv (.binary b) =>
    match dst with
    | .dBytes _ => .ok (true, .dBytes b)
    | .dSlice _ => .error (.panicked .setBytesElem)
    | .dArray _ => .error (.panicked .setBytesElem)
    | _ => .error (.panicked .reflectElem)
  | .cv .undefined => .ok (true, dst)
  | .cv (.objectId b) =>
    match dst with
    | .dBytes _ => .ok (true, .dBytes b)
    | .dSlice _ => .error (.panicked .setBytesElem)
    | .dArray _ => .error (.panicked .setBytesElem)
    | _ => .error (.panicked .reflectElem)
  | .cv (.bool b) =>
    match dst with
    | .dBool _ => .ok (true, .dBool b)
    | _ => .error (.cannotCoerce "bson.Bool" (destTyName dst))
  | .cv (.utcDateTime ms) =>
    match dst with
    | .dTime _ => .ok (true, .dTime (wrap64 (ms * 1000)))
    | .dInt64 _ => .ok (true, .dInt64 ms)
    | _ => .error (.cannotCoerce "bson.UTCDateTime" (destTyName dst))
  | .cv .null => .ok (true, dst)
  | .cv (.regexp pat opt) =>
    match dst with
    | .dRegexp _ _ => .ok (true, .dRegexp pat opt)
    | _ => .error (.cannotCoerce "bson.Regexp" (destTyName dst))
  | .cv (.dbPointer nm oid) =>
    match dst with
    | .dDBPointer _ _ => .ok (true, .dDBPointer nm oid)
    | _ => .error (.cannotCoerce "bson.DBPointer" (destTyName dst))
  | .cv (.javascript s) =>
    match dst with
    | .dString _ => .ok (true, .dString s)
    | _ => .error (.cannotCoerce "bson.Javascript" (destTyName dst))
  | .cv (.symbol s) =>
    match dst with
    | .dString _ => .ok (true, .dString s)
    | _ => .error (.cannotCoerce "bson.Symbol" (destTyName dst))
  | .cv (.javascriptScope js sc) =>
    match dst with
    | .dJsScope _ _ => .ok (true, .dJsScope js sc)
    | _ => .error (.cannotCoerce "bson.JavascriptScope" (destTyName dst))
  | .cv (.int32 n) =>
    match dst with
    | .dInt32 _ =>
      if -2147483648 ≤ n ∧ n < 2147483648 then .ok (true, .dInt32 n)
      else .error (.panicked .setIntRange)
    | .dInt64 _ => .ok (true, .dInt64 n)
    | _ => .error (.cannotCoerce "bson.Int32" (destTyName dst))
  | .cv (.timestamp t) =>
    match dst with
    | .dTime _ => .ok (true, .dTime (wrap64 (t * 1000)))
    | .dInt64 _ => .ok (true, .dInt64 t)
    | _ => .error (.cannotCoerce "bson.Timestamp" (destTyName dst))
  | .cv (.int64 n) =>
    match dst with
    | .dInt64 _ => .ok (true, .dInt64 n)
    | _ => .error (.cannotCoerce "bson.Int64" (destTyName dst))
  | .cv .minKey => .ok (true, dst)
  | .cv .maxKey => .ok (true, dst)
  | .cv _ => .ok (true, dst)
  | .cstr _ => .ok (true, dst)
  | .cpair _ _ => .ok (true, dst)

/-- Map.Reach from reach.go.  The dst==nil guard is outside this model (Dest
always denotes an actual variable); reach not finding the path is the
(false, nil) outcome with the destination untouched. -/
def mapReach (m : Pairs) (dst : Dest) (dot : List Str) :
    Except AErr (Bool × Dest) :=
  match reach (.cv (.map m)) dot with
  | none => .ok (false, dst)
  | some src => assign dst src

/-- Slice.Reach from reach.go ("Same as map reach"). -/
def sliceReach (s : Pairs) (dst : Dest) (dot : List Str) :
    Except AErr (Bool × Dest) :=
  match reach (.cv (.slice s)) dot with
  | none => .ok (false, dst)
  | some src => assign dst src

end Bson

namespace Bson

theorem natToLE_length (k n : Nat) : (natToLE k n).length = k := by
  induction k generalizing n with
  | zero => simp [natToLE]
  | succ j ih => simp [natToLE, ih]

theorem fromLE_natToLE (k n : Nat) : fromLE (natToLE k n) = n % 256 ^ k := by
  induction k generalizing n with
  | zero => simp [natToLE, fromLE, Nat.mod_one]
  | succ j ih =>
    simp only [natToLE, fromLE, ih]
    rw [Nat.pow_succ, Nat.mul_comm (256 ^ j) 256, Nat.mod_mul]

end Bson

namespace Bson

theorem readInt32_bytes (L : Nat) (rest : List Nat) :
    readInt32 (natToLE 4 L ++ rest) = .ok (toSigned32 L, rest) := by
  have h4 : natToLE 4 L = [L % 256, L / 256 % 256, L / 256 / 256 % 256,
      L / 256 / 256 / 256 % 256] := by
    simp [natToLE]
  rw [h4]
  simp only [List.cons_append, List.nil_append, readInt32]
  have hfrom : fromLE [L % 256, L / 256 % 256, L / 256 / 256 % 256,
      L / 256 / 256 / 256 % 256] = L % 256 ^ 4 := by
    rw [← h4, fromLE_natToLE]
  rw [hfrom]
  have : toSigned32 (L % 256 ^ 4) = toSigned32 L := by
    simp only [toSigned32]
    norm_num
  rw [this]

theorem readInt32_natToLE4 (L : Nat) (rest : List Nat) (h : L < 2147483648) :
    readInt32 (natToLE 4 L ++ rest) = .ok ((L : Int), rest) := by
  rw [readInt32_bytes]
  have : toSigned32 L = (L : Int) := by
    simp only [toSigned32]
    split <;> omega
  rw [this]

theorem readInt32_intToLE4 (i : Int) (rest : List Nat)
    (h1 : -2147483648 ≤ i) (h2 : i < 2147483648) :
    readInt32 (intToLE4 i ++ rest) = .ok (i, rest) := by
  rw [intToLE4, readInt32_bytes]
  have he : Int.emod i 4294967296 = i % 4294967296 := rfl
  have : toSigned32 (i.emod 4294967296).toNat = i := by
    simp only [toSigned32, he]
    split <;> omega
  rw [this]

end Bson

namespace Bson

theorem readInt64_bytes (L : Nat) (rest : List Nat) :
    readInt64 (natToLE 8 L ++ rest) = .ok (toSigned64 L, rest) := by
  have h8 : natToLE 8 L = [L % 256, L / 256 % 256, L / 256 / 256 % 256,
      L / 256 / 256 / 256 % 256, L / 256 / 256 / 256 / 256 % 256,
      L / 256 / 256 / 256 / 256 / 256 % 256,
      L / 256 / 256 / 256 / 256 / 256 / 256 % 256,
      L / 256 / 256 / 256 / 256 / 256 / 256 / 256 % 256] := by
    simp [natToLE]
  rw [h8]
  simp only [List.cons_append, List.nil_append, readInt64]
  have hfrom : fromLE [L % 256, L / 256 % 256, L / 256 / 256 % 256,
      L / 256 / 256 / 256 % 256, L / 256 / 256 / 256 / 256 % 256,
      L / 256 / 256 / 256 / 256 / 256 % 256,
      L / 256 / 256 / 256 / 256 / 256 / 256 % 256,
      L / 256 / 256 / 256 / 256 / 256 / 256 / 256 % 256] = L % 256 ^ 8 := by
    rw [← h8, fromLE_natToLE]
  rw [hfrom]
  have : toSigned64 (L % 256 ^ 8) = toSigned64 L := by
    simp only [toSigned64]
    norm_num
  rw [this]

theorem readInt64_intToLE8 (i : Int) (rest : List Nat)
    (h1 : -9223372036854775808 ≤ i) (h2 : i < 9223372036854775808) :
    readInt64 (intToLE8 i ++ rest) = .ok (i, rest) := by
  rw [intToLE8, readInt64_bytes]
  have he : Int.emod i 18446744073709551616 = i % 18446744073709551616 := rfl
  have : toSigned64 (i.emod 18446744073709551616).toNat = i := by
    simp only [toSigned64, he]
    split <;> omega
  rw [this]

theorem readCstring_cons (s : Str) (r : List Nat) (h : noNul s = true) :
    readCstring (s ++ 0 :: r) = .ok (s, r) := by
  induction s with
  | nil => simp [readCstring]
  | cons x xs ih =>
    rw [noNul, List.all_cons, Bool.and_eq_true] at h
    obtain ⟨hx2, hxs⟩ := h
    have hx : x ≠ 0 := by simpa using hx2
    have ihh := ih hxs
    simp [readCstring, if_neg hx, ihh]

theorem readCstring_writeCstring (s : Str) (r : List Nat) (h : noNul s = true) :
    readCstring (writeCstring s ++ r) = .ok (s, r) := by
  rw [show writeCstring s ++ r = s ++ 0 :: r by simp [writeCstring]]
  exact readCstring_cons s r h

theorem readN_exact (b r : List Nat) : readN b.length (b ++ r) = .ok (b, r) := by
  simp [readN, List.take_left, List.drop_left]

theorem readString_writeString (s : Str) (r : List Nat)
    (h : s.length + 1 ≤ maxDocLenNat) :
    readString (writeString s ++ r) = .ok (s, r) := by
  have hlt : s.length + 1 < 2147483648 := by
    simp [maxDocLenNat] at h; omega
  simp only [writeString, List.append_assoc]
  rw [readString, readInt32_natToLE4 _ _ hlt]
  simp only []
  rw [if_neg (by omega)]
  rw [if_neg (by simp [maxDocLen, maxDocLenNat] at h ⊢; omega)]
  rw [if_neg (by omega)]
  have htn : ((s.length + 1 : Nat) : Int).toNat = (s ++ [0]).length := by
    simp
  rw [htn, ← List.append_assoc, readN_exact (s ++ [0]) r]
  simp

theorem docSpan_frame (body r : List Nat)
    (h : body.length + 5 ≤ maxDocLenNat) :
    docSpan ((natToLE 4 (4 + body.length + 1) ++ body ++ [0]) ++ r) =
      .ok (body ++ [0], r) := by
  have hlt : 4 + body.length + 1 < 2147483648 := by
    simp [maxDocLenNat] at h; omega
  simp only [List.append_assoc]
  rw [docSpan, readInt32_natToLE4 _ _ hlt]
  simp only []
  rw [if_neg (by simp [maxDocLen, maxDocLenNat] at h ⊢; omega)]
  have htn : (((4 + body.length + 1 : Nat) : Int) - 4).toNat =
      (body ++ [0]).length := by
    simp; omega
  rw [htn, ← List.append_assoc, List.take_left, List.drop_left]

end Bson

namespace Bson

theorem mapInsert_notmem (m : Pairs) (k : Str) (v : Value)
    (h : m.any (fun p => p.1 = k) = false) : mapInsert m k v = m ++ [(k, v)] := by
  induction m with
  | nil => simp [mapInsert]
  | cons p rest ih =>
    obtain ⟨k2, v2⟩ := p
    simp only [List.any_cons, Bool.or_eq_false_iff] at h
    obtain ⟨h1, h2⟩ := h
    simp only [mapInsert]
    rw [if_neg (by simpa using h1)]
    rw [ih h2]
    simp

theorem nodupKeys_shift (acc : Pairs) (k : Str) (v : Value) (rest : Pairs)
    (h : nodupKeys (acc ++ (k, v) :: rest) = true) :
    acc.any (fun p => p.1 = k) = false ∧
    nodupKeys ((acc ++ [(k, v)]) ++ rest) = true := by
  induction acc with
  | nil =>
    simp only [List.nil_append, nodupKeys, Bool.and_eq_true] at h
    refine ⟨rfl, ?_⟩
    simp only [List.nil_append, List.singleton_append, nodupKeys,
      Bool.and_eq_true]
    exact h
  | cons p acc2 ih =>
    obtain ⟨k2, v2⟩ := p
    simp only [List.cons_append, nodupKeys, Bool.and_eq_true] at h
    obtain ⟨h1, h2⟩ := h
    simp only [List.append_eq] at h1 h2
    have ih2 := ih h2
    rw [Bool.not_eq_true'] at h1
    rw [List.any_append, List.any_cons] at h1
    simp only [Bool.or_eq_false_iff, decide_eq_false_iff_not] at h1
    obtain ⟨ha, hk, hrest⟩ := h1
    constructor
    · simp only [List.any_cons, Bool.or_eq_false_iff, decide_eq_false_iff_not]
      exact ⟨fun hkk => hk hkk.symm, ih2.1⟩
    · simp only [List.cons_append, nodupKeys, Bool.and_eq_true]
      refine ⟨?_, ih2.2⟩
      rw [Bool.not_eq_true']
      simp only [List.append_eq, List.any_append, List.any_cons, List.any_nil,
        Bool.or_eq_false_iff, decide_eq_false_iff_not]
      exact ⟨⟨ha, hk, by simp⟩, hrest⟩

theorem foldl_mapInsert (ps acc : Pairs)
    (h : nodupKeys (acc ++ ps) = true) :
    ps.foldl (fun m p => mapInsert m p.1 p.2) acc = acc ++ ps := by
  induction ps generalizing acc with
  | nil => simp
  | cons p rest ih =>
    obtain ⟨k, v⟩ := p
    obtain ⟨h1, h2⟩ := nodupKeys_shift acc k v rest h
    simp only [List.foldl_cons]
    rw [mapInsert_notmem acc k v h1]
    rw [ih (acc ++ [(k, v)]) h2]
    simp

theorem mapFromPairs_nodup (ps : Pairs) (h : nodupKeys ps = true) :
    mapFromPairs ps = ps := by
  have := foldl_mapInsert ps [] (by simpa using h)
  simpa [mapFromPairs] using this

end Bson

namespace Bson

theorem alookup_cons_ne (k1 : Str) (v1 : Value) (rest : Pairs) (k : Str)
    (h : k1 ≠ k) : alookup ((k1, v1) :: rest) k = alookup rest k := by
  simp [alookup, if_neg h]

theorem filterMap_alookup (ps : Pairs) (h : nodupKeys ps = true) :
    (keysOf ps).filterMap (fun k => alookup ps k) = ps.map Prod.snd := by
  induction ps with
  | nil => simp [keysOf]
  | cons p rest ih =>
    obtain ⟨k1, v1⟩ := p
    simp only [nodupKeys, Bool.and_eq_true] at h
    obtain ⟨h1, h2⟩ := h
    rw [Bool.not_eq_true'] at h1
    simp only [keysOf, List.map_cons, List.filterMap_cons]
    have hself : alookup ((k1, v1) :: rest) k1 = some v1 := by
      simp [alookup]
    rw [hself]
    have htail : (rest.map Prod.fst).filterMap (fun k => alookup ((k1, v1) :: rest) k)
        = (rest.map Prod.fst).filterMap (fun k => alookup rest k) := by
      apply List.filterMap_congr
      intro k hk
      apply alookup_cons_ne
      intro hkk
      subst hkk
      have : rest.any (fun p => p.1 = k1) = true := by
        simp only [List.any_eq_true]
        simp only [List.mem_map] at hk
        obtain ⟨q, hq, hq2⟩ := hk
        exact ⟨q, hq, by simp [hq2]⟩
      rw [h1] at this
      exact Bool.false_ne_true this
    have ih2 := ih h2
    simp only [keysOf] at ih2
    rw [htail]
    simp only []
    rw [ih2]

end Bson

namespace Bson

/-- Size admissibility of a document body: the encoded document (body plus
4 length bytes and the final NUL) must stay within the decoder's ceiling. -/
def docSizeOk (ps : Pairs) : Bool :=
  match encodePairs ps with
  | .ok body => body.length + 5 ≤ maxDocLenNat
  | .error _ => false

/-- Size admissibility of an array body document. -/
def arraySizeOk (a : List Value) : Bool :=
  match encodeItems 0 a with
  | .ok body => body.length + 5 ≤ maxDocLenNat
  | .error _ => false

mutual
/-- Round-trip admissibility of a value inside a document of the given shape
(isMap = true: Map shape, decoded by ReadMap; false: Slice shape).  It rules
out exactly the situations in which decode(encode v) provably differs from v:
raw BSON and host-native values (changed by coercion), documents of the
other shape (the decoder rebuilds nested documents in the target shape),
empty arrays (dropped by the encoder) and arrays of more than 10 elements
(reordered by the string sort of their index keys), out-of-range numbers,
NUL bytes inside cstring payloads, ids of the wrong size, and documents or
strings beyond the decoder's size ceiling.  Array elements and scope
documents are always decoded as Maps. -/
def goodVal (isMap : Bool) : Value → Bool
  | .float bits => bits < 18446744073709551616
  | .str s => s.length + 1 ≤ maxDocLenNat
  | .map m => isMap && goodDoc true m
  | .slice s => !isMap && goodDoc false s
  | .bson _ => false
  | .array a => !a.isEmpty && a.length ≤ 10 && goodItems a && arraySizeOk a
  | .binary b => b.length ≤ maxDocLenNat
  | .undefined => true
  | .objectId b => b.length = 12
  | .bool _ => true
  | .utcDateTime ms =>
      decide (-9223372036854775808 ≤ ms) && decide (ms < 9223372036854775808)
  | .null => true
  | .regexp pat opt => noNul pat && noNul opt
  | .dbPointer nm oid =>
      decide (nm.length + 1 ≤ maxDocLenNat) && decide (oid.length = 12)
  | .javascript s => s.length + 1 ≤ maxDocLenNat
  | .symbol s => s.length + 1 ≤ maxDocLenNat
  | .javascriptScope js sc =>
      decide (js.length + 1 ≤ maxDocLenNat) && goodDoc true sc
  | .int32 n => decide (-2147483648 ≤ n) && decide (n < 2147483648)
  | .timestamp n =>
      decide (-9223372036854775808 ≤ n) && decide (n < 9223372036854775808)
  | .int64 n =>
      decide (-9223372036854775808 ≤ n) && decide (n < 9223372036854775808)
  | .minKey => true
  | .maxKey => true
  | .goNil => false
  | .goBool _ => false
  | .goInt8 _ => false
  | .goInt16 _ => false
  | .goInt32 _ => false
  | .goInt _ => false
  | .goInt64 _ => false
  | .goFloat64 _ => false
  | .goString _ => false
  | .goTime _ => false
  | .goBytes _ => false
  | .goSlice _ => false
  | .goUnsupported _ => false
termination_by v => (sizeOf v, 0)

/-- Admissibility of a whole document: distinct keys for the Map shape (a Go
map cannot hold duplicates), admissible pairs, and the size ceiling. -/
def goodDoc (isMap : Bool) (ps : Pairs) : Bool :=
  (if isMap then nodupKeys ps else true) && goodPairsElems isMap ps &&
    docSizeOk ps
termination_by (sizeOf ps, 2)

/-- Element-wise admissibility: NUL-free field names, admissible values. -/
def goodPairsElems (isMap : Bool) (ps : Pairs) : Bool :=
  match ps with
  | [] => true
  | (k, v) :: rest => noNul k && goodVal isMap v && goodPairsElems isMap rest
termination_by (sizeOf ps, 1)

/-- Admissibility of array elements (arrays always decode as Map shape). -/
def goodItems (l : List Value) : Bool :=
  match l with
  | [] => true
  | v :: rest => goodVal true v && goodItems rest
termination_by (sizeOf l, 1)
end

end Bson

namespace Bson

theorem readN_natToLE (k n : Nat) (rest : List Nat) :
    readN k (natToLE k n ++ rest) = .ok (natToLE k n, rest) := by
  have h := readN_exact (natToLE k n) rest
  rwa [natToLE_length] at h

theorem decodeFloat_rt (name : Str) (bits : Nat) (rest : List Nat)
    (hn : noNul name = true) (hb : bits < 18446744073709551616) :
    decodeFloat ((writeCstring name ++ natToLE 8 bits) ++ rest)
      = .ok (name, .float bits, rest) := by
  simp only [List.append_assoc]
  rw [decodeFloat, readCstring_writeCstring _ _ hn]
  simp only []
  rw [readN_natToLE]
  simp only []
  rw [fromLE_natToLE]
  have hb2 : bits < 256 ^ 8 := by norm_num; exact hb
  rw [Nat.mod_eq_of_lt hb2]

theorem decodeString_rt (name s : Str) (rest : List Nat)
    (hn : noNul name = true) (hs : s.length + 1 ≤ maxDocLenNat) :
    decodeString ((writeCstring name ++ writeString s) ++ rest)
      = .ok (name, .str s, rest) := by
  simp only [List.append_assoc]
  rw [decodeString, readCstring_writeCstring _ _ hn]
  simp only []
  rw [readString_writeString _ _ hs]

theorem decodeJavascript_rt (name s : Str) (rest : List Nat)
    (hn : noNul name = true) (hs : s.length + 1 ≤ maxDocLenNat) :
    decodeJavascript ((writeCstring name ++ writeString s) ++ rest)
      = .ok (name, .javascript s, rest) := by
  simp only [List.append_assoc]
  rw [decodeJavascript, readCstring_writeCstring _ _ hn]
  simp only []
  rw [readString_writeString _ _ hs]

theorem decodeSymbol_rt (name s : Str) (rest : List Nat)
    (hn : noNul name = true) (hs : s.length + 1 ≤ maxDocLenNat) :
    decodeSymbol ((writeCstring name ++ writeString s) ++ rest)
      = .ok (name, .symbol s, rest) := by
  simp only [List.append_assoc]
  rw [decodeSymbol, readCstring_writeCstring _ _ hn]
  simp only []
  rw [readString_writeString _ _ hs]

theorem decodeBinary_rt (name : Str) (b : List Nat) (rest : List Nat)
    (hn : noNul name = true) (hb : b.length ≤ maxDocLenNat) :
    decodeBinary ((writeCstring name ++ natToLE 4 b.length ++ 0 :: b) ++ rest)
      = .ok (name, .binary b, rest) := by
  have hlt : b.length < 2147483648 := by simp [maxDocLenNat] at hb; omega
  simp only [List.append_assoc, List.cons_append]
  rw [decodeBinary, readCstring_writeCstring _ _ hn]
  simp only []
  rw [readInt32_natToLE4 _ _ hlt]
  simp only []
  rw [show readByte (0 :: (b ++ rest)) = .ok (0, b ++ rest) from rfl]
  simp only []
  rw [if_neg (by omega)]
  rw [show ((b.length : Nat) : Int).toNat = b.length by simp]
  rw [readN_exact]

theorem decodeBool_rt (name : Str) (b : Bool) (rest : List Nat)
    (hn : noNul name = true) :
    decodeBool ((writeCstring name ++ [if b then 1 else 0]) ++ rest)
      = .ok (name, .bool b, rest) := by
  simp only [List.append_assoc, List.cons_append, List.nil_append]
  rw [decodeBool, readCstring_writeCstring _ _ hn]
  simp only []
  rw [show readByte ((if b then (1 : Nat) else 0) :: rest) =
    .ok ((if b then 1 else 0), rest) from rfl]
  simp only []
  cases b <;> simp

theorem decodeObjectId_rt (name : Str) (b : List Nat) (rest : List Nat)
    (hn : noNul name = true) (hb : b.length = 12) :
    decodeObjectId ((writeCstring name ++ b) ++ rest)
      = .ok (name, .objectId b, rest) := by
  simp only [List.append_assoc]
  rw [decodeObjectId, readCstring_writeCstring _ _ hn]
  simp only []
  rw [show (12 : Nat) = b.length from hb.symm, readN_exact]

theorem decodeDBPointer_rt (name nm : Str) (oid : List Nat) (rest : List Nat)
    (hn : noNul name = true) (hnm : nm.length + 1 ≤ maxDocLenNat)
    (ho : oid.length = 12) :
    decodeDBPointer ((writeCstring name ++ writeString nm ++ oid) ++ rest)
      = .ok (name, .dbPointer nm oid, rest) := by
  simp only [List.append_assoc]
  rw [decodeDBPointer, readCstring_writeCstring _ _ hn]
  simp only []
  rw [readString_writeString _ _ hnm]
  simp only []
  rw [show (12 : Nat) = oid.length from ho.symm, readN_exact]

theorem decodeRegexp_rt (name pat opt : Str) (rest : List Nat)
    (hn : noNul name = true) (hp : noNul pat = true) (ho : noNul opt = true) :
    decodeRegexp ((writeCstring name ++ writeCstring pat ++ writeCstring opt)
      ++ rest) = .ok (name, .regexp pat opt, rest) := by
  simp only [List.append_assoc]
  rw [decodeRegexp, readCstring_writeCstring _ _ hn]
  simp only []
  rw [readCstring_writeCstring _ _ hp]
  simp only []
  rw [readCstring_writeCstring _ _ ho]

theorem decodeInt32_rt (name : Str) (n : Int) (rest : List Nat)
    (hn : noNul name = true) (h1 : -2147483648 ≤ n) (h2 : n < 2147483648) :
    decodeInt32 ((writeCstring name ++ intToLE4 n) ++ rest)
      = .ok (name, .int32 n, rest) := by
  simp only [List.append_assoc]
  rw [decodeInt32, readCstring_writeCstring _ _ hn]
  simp only []
  rw [readInt32_intToLE4 _ _ h1 h2]

theorem decodeInt64_rt (name : Str) (n : Int) (rest : List Nat)
    (hn : noNul name = true) (h1 : -9223372036854775808 ≤ n)
    (h2 : n < 9223372036854775808) :
    decodeInt64 ((writeCstring name ++ intToLE8 n) ++ rest)
      = .ok (name, .int64 n, rest) := by
  simp only [List.append_assoc]
  rw [decodeInt64, readCstring_writeCstring _ _ hn]
  simp only []
  rw [readInt64_intToLE8 _ _ h1 h2]

theorem decodeTimestamp_rt (name : Str) (n : Int) (rest : List Nat)
    (hn : noNul name = true) (h1 : -9223372036854775808 ≤ n)
    (h2 : n < 9223372036854775808) :
    decodeTimestamp ((writeCstring name ++ intToLE8 n) ++ rest)
      = .ok (name, .timestamp n, rest) := by
  simp only [List.append_assoc]
  rw [decodeTimestamp, readCstring_writeCstring _ _ hn]
  simp only []
  rw [readInt64_intToLE8 _ _ h1 h2]

theorem decodeUTCDateTime_rt (name : Str) (n : Int) (rest : List Nat)
    (hn : noNul name = true) (h1 : -9223372036854775808 ≤ n)
    (h2 : n < 9223372036854775808) :
    decodeUTCDateTime ((writeCstring name ++ intToLE8 n) ++ rest)
      = .ok (name, .utcDateTime n, rest) := by
  simp only [List.append_assoc]
  rw [decodeUTCDateTime, readCstring_writeCstring _ _ hn]
  simp only []
  rw [readInt64_intToLE8 _ _ h1 h2]

theorem decodeUndefined_rt (name : Str) (rest : List Nat)
    (hn : noNul name = true) :
    decodeUndefined (writeCstring name ++ rest)
      = .ok (name, .undefined, rest) := by
  rw [decodeUndefined, readCstring_writeCstring _ _ hn]

theorem decodeNull_rt (name : Str) (rest : List Nat)
    (hn : noNul name = true) :
    decodeNull (writeCstring name ++ rest) = .ok (name, .null, rest) := by
  rw [decodeNull, readCstring_writeCstring _ _ hn]

theorem decodeMinKey_rt (name : Str) (rest : List Nat)
    (hn : noNul name = true) :
    decodeMinKey (writeCstring name ++ rest) = .ok (name, .minKey, rest) := by
  rw [decodeMinKey, readCstring_writeCstring _ _ hn]

theorem decodeMaxKey_rt (name : Str) (rest : List Nat)
    (hn : noNul name = true) :
    decodeMaxKey (writeCstring name ++ rest) = .ok (name, .maxKey, rest) := by
  rw [decodeMaxKey, readCstring_writeCstring _ _ hn]

end Bson

namespace Bson

/-- The (key, value) pairs of an encoded array body: element j of the array
(counting from i at the head) is keyed by its decimal index. -/
def itemsPairs (i : Nat) : List Value → Pairs
  | [] => []
  | v :: rest => (natToDecStr i, v) :: itemsPairs (i + 1) rest

theorem decDigits_range (fuel n : Nat) :
    ∀ x ∈ decDigits fuel n, 48 ≤ x ∧ x ≤ 57 := by
  induction fuel generalizing n with
  | zero => simp [decDigits]
  | succ f ih =>
    intro x hx
    simp only [decDigits] at hx
    split at hx
    · simp at hx
      omega
    · simp only [List.mem_append, List.mem_singleton] at hx
      rcases hx with hx | hx
      · exact ih (n / 10) x hx
      · subst hx
        have : n % 10 < 10 := Nat.mod_lt n (by omega)
        omega

theorem noNul_natToDecStr (i : Nat) : noNul (natToDecStr i) = true := by
  simp only [noNul, natToDecStr, List.all_eq_true, decide_eq_true_eq]
  intro x hx
  have := decDigits_range (i + 1) i x hx
  omega

theorem except_match_map {α β γ : Type} (x : Except α β) (f : β → γ) :
    (match x with
     | .error e => Except.error e
     | .ok y => Except.ok (f y)) = x.map f := by
  cases x <;> rfl

end Bson

namespace Bson

theorem itemsPairs_map_snd (i : Nat) (l : List Value) :
    (itemsPairs i l).map Prod.snd = l := by
  induction l generalizing i with
  | nil => simp [itemsPairs]
  | cons v rest ih => simp [itemsPairs, ih]

/-- For arrays of at most 10 elements the synthetic decimal keys are single
digits, already in sorted order, so decodeArray's sort-and-collect step
reproduces the original element order. -/
theorem arrayFromDoc_items (a : List Value) (h1 : a ≠ []) (h2 : a.length ≤ 10) :
    arrayFromDoc (mapFromPairs (itemsPairs 0 a)) = a := by
  match a with
  | [] => exact absurd rfl h1
  | [v1] =>
    rw [mapFromPairs_nodup _ (by rfl), arrayFromDoc,
      show sortStrs (keysOf (itemsPairs 0 [v1])) =
        keysOf (itemsPairs 0 [v1]) from rfl,
      filterMap_alookup _ (by rfl)]
    exact itemsPairs_map_snd 0 [v1]
  | [v1, v2] =>
    rw [mapFromPairs_nodup _ (by rfl), arrayFromDoc,
      show sortStrs (keysOf (itemsPairs 0 [v1, v2])) =
        keysOf (itemsPairs 0 [v1, v2]) from rfl,
      filterMap_alookup _ (by rfl)]
    exact itemsPairs_map_snd 0 [v1, v2]
  | [v1, v2, v3] =>
    rw [mapFromPairs_nodup _ (by rfl), arrayFromDoc,
      show sortStrs (keysOf (itemsPairs 0 [v1, v2, v3])) =
        keysOf (itemsPairs 0 [v1, v2, v3]) from rfl,
      filterMap_alookup _ (by rfl)]
    exact itemsPairs_map_snd 0 [v1, v2, v3]
  | [v1, v2, v3, v4] =>
    rw [mapFromPairs_nodup _ (by rfl), arrayFromDoc,
      show sortStrs (keysOf (itemsPairs 0 [v1, v2, v3, v4])) =
        keysOf (itemsPairs 0 [v1, v2, v3, v4]) from rfl,
      filterMap_alookup _ (by rfl)]
    exact itemsPairs_map_snd 0 [v1, v2, v3, v4]
  | [v1, v2, v3, v4, v5] =>
    rw [mapFromPairs_nodup _ (by rfl), arrayFromDoc,
      show sortStrs (keysOf (itemsPairs 0 [v1, v2, v3, v4, v5])) =
        keysOf (itemsPairs 0 [v1, v2, v3, v4, v5]) from rfl,
      filterMap_alookup _ (by rfl)]
    exact itemsPairs_map_snd 0 [v1, v2, v3, v4, v5]
  | [v1, v2, v3, v4, v5, v6] =>
    rw [mapFromPairs_nodup _ (by rfl), arrayFromDoc,
      show sortStrs (keysOf (itemsPairs 0 [v1, v2, v3, v4, v5, v6])) =
        keysOf (itemsPairs 0 [v1, v2, v3, v4, v5, v6]) from rfl,
      filterMap_alookup _ (by rfl)]
    exact itemsPairs_map_snd 0 [v1, v2, v3, v4, v5, v6]
  | [v1, v2, v3, v4, v5, v6, v7] =>
    rw [mapFromPairs_nodup _ (by rfl), arrayFromDoc,
      show sortStrs (keysOf (itemsPairs 0 [v1, v2, v3, v4, v5, v6, v7])) =
        keysOf (itemsPairs 0 [v1, v2, v3, v4, v5, v6, v7]) from rfl,
      filterMap_alookup _ (by rfl)]
    exact itemsPairs_map_snd 0 [v1, v2, v3, v4, v5, v6, v7]
  | [v1, v2, v3, v4, v5, v6, v7, v8] =>
    rw [mapFromPairs_nodup _ (by rfl), arrayFromDoc,
      show sortStrs (keysOf (itemsPairs 0 [v1, v2, v3, v4, v5, v6, v7, v8])) =
        keysOf (itemsPairs 0 [v1, v2, v3, v4, v5, v6, v7, v8]) from rfl,
      filterMap_alookup _ (by rfl)]
    exact itemsPairs_map_snd 0 [v1, v2, v3, v4, v5, v6, v7, v8]
  | [v1, v2, v3, v4, v5, v6, v7, v8, v9] =>
    rw [mapFromPairs_nodup _ (by rfl), arrayFromDoc,
      show sortStrs (keysOf (itemsPairs 0 [v1, v2, v3, v4, v5, v6, v7, v8, v9])) =
        keysOf (itemsPairs 0 [v1, v2, v3, v4, v5, v6, v7, v8, v9]) from rfl,
      filterMap_alookup _ (by rfl)]
    exact itemsPairs_map_snd 0 [v1, v2, v3, v4, v5, v6, v7, v8, v9]
  | [v1, v2, v3, v4, v5, v6, v7, v8, v9, v10] =>
    rw [mapFromPairs_nodup _ (by rfl), arrayFromDoc,
      show sortStrs (keysOf (itemsPairs 0 [v1, v2, v3, v4, v5, v6, v7, v8, v9, v10])) =
        keysOf (itemsPairs 0 [v1, v2, v3, v4, v5, v6, v7, v8, v9, v10]) from rfl,
      filterMap_alookup _ (by rfl)]
    exact itemsPairs_map_snd 0 [v1, v2, v3, v4, v5, v6, v7, v8, v9, v10]
  | v1 :: v2 :: v3 :: v4 :: v5 :: v6 :: v7 :: v8 :: v9 :: v10 :: v11 :: rest =>
    exfalso
    simp at h2

end Bson

namespace Bson

theorem docSpan_frame2 (body r : List Nat)
    (h : body.length + 5 ≤ maxDocLenNat) :
    docSpan (natToLE 4 (4 + body.length + 1) ++ (body ++ 0 :: r)) =
      .ok (body ++ [0], r) := by
  have h2 := docSpan_frame body r h
  rw [show (natToLE 4 (4 + body.length + 1) ++ body ++ [0]) ++ r =
    natToLE 4 (4 + body.length + 1) ++ (body ++ 0 :: r) by simp] at h2
  exact h2

mutual

theorem rtVal (v : Value) (isMap : Bool) (name : Str) (bs rest : List Nat)
    (hg : goodVal isMap v = true) (hn : noNul name = true)
    (he : encodeVal name v = .ok bs) :
    decodeElems isMap true (bs ++ rest) =
      (decodeElems isMap true rest).map (fun ps => (name, v) :: ps) := by
  match v with
  | .float bits =>
    simp only [goodVal, decide_eq_true_eq] at hg
    simp only [encodeVal, Except.ok.injEq] at he
    subst he
    rw [show (tFloat :: writeCstring name ++ natToLE 8 bits) ++ rest =
      tFloat :: ((writeCstring name ++ natToLE 8 bits) ++ rest) by simp]
    rw [decodeElems]
    norm_num [tFloat, tString, tEmbedded, tArray, tBinary, tUndefined, tObjectId, tBoolean, tUTCDateTime, tNull, tRegexp, tDBPointer, tJavascript, tSymbol, tJavascriptScope, tInt32, tTimestamp, tInt64, tMinKey, tMaxKey]
    rw [decodeFloat_rt _ _ _ hn hg]
    simp only []
    cases h2 : decodeElems isMap true rest <;> simp [Except.map]
  | .str s =>
    simp only [goodVal, decide_eq_true_eq] at hg
    simp only [encodeVal, Except.ok.injEq] at he
    subst he
    rw [show (tString :: writeCstring name ++ writeString s) ++ rest =
      tString :: ((writeCstring name ++ writeString s) ++ rest) by simp]
    rw [decodeElems]
    norm_num [tFloat, tString, tEmbedded, tArray, tBinary, tUndefined, tObjectId, tBoolean, tUTCDateTime, tNull, tRegexp, tDBPointer, tJavascript, tSymbol, tJavascriptScope, tInt32, tTimestamp, tInt64, tMinKey, tMaxKey]
    rw [decodeString_rt _ _ _ hn hg]
    simp only []
    cases h2 : decodeElems isMap true rest <;> simp [Except.map]
  | .map m =>
    simp only [goodVal, Bool.and_eq_true] at hg
    obtain ⟨hm, hdoc⟩ := hg
    have hm2 : isMap = true := by simpa using hm
    subst hm2
    simp only [goodDoc, if_true, Bool.and_eq_true] at hdoc
    obtain ⟨⟨hnodup, helems⟩, hsize⟩ := hdoc
    simp only [encodeVal] at he
    cases h1 : encodeDoc m with
    | error e => rw [h1] at he; simp [bind, Except.bind] at he
    | ok db =>
      rw [h1] at he
      simp [bind, Except.bind] at he
      subst he
      rw [encodeDoc] at h1
      cases h2 : encodePairs m with
      | error e => rw [h2] at h1; simp [bind, Except.bind] at h1
      | ok body =>
        rw [h2] at h1
        simp [bind, Except.bind] at h1
        subst h1
        have hs : body.length + 5 ≤ maxDocLenNat := by
          simp only [docSizeOk, h2, decide_eq_true_eq] at hsize
          exact hsize
        simp only [List.cons_append, List.append_assoc, List.singleton_append]
        rw [decodeElems]
        simp only [tFloat, tString, tEmbedded, tArray, tBinary, tUndefined, tObjectId, tBoolean, tUTCDateTime, tNull, tRegexp, tDBPointer, tJavascript, tSymbol, tJavascriptScope, tInt32, tTimestamp, tInt64, tMinKey, tMaxKey]
        norm_num
        rw [readCstring_writeCstring _ _ hn]
        simp only [List.nil_append]
        rw [docSpan_frame2 body rest hs]
        simp only []
        rw [rtPairs m true body [] helems h2]
        simp only []
        rw [mapFromPairs_nodup m hnodup]
        cases h3 : decodeElems true true rest <;> simp [Except.map]
  | .binary b =>
    simp only [goodVal, decide_eq_true_eq] at hg
    simp only [encodeVal, Except.ok.injEq] at he
    subst he
    rw [show (tBinary :: writeCstring name ++ natToLE 4 b.length ++ 0 :: b) ++ rest =
      tBinary :: ((writeCstring name ++ natToLE 4 b.length ++ 0 :: b) ++ rest) by simp]
    rw [decodeElems]
    norm_num [tFloat, tString, tEmbedded, tArray, tBinary, tUndefined, tObjectId, tBoolean, tUTCDateTime, tNull, tRegexp, tDBPointer, tJavascript, tSymbol, tJavascriptScope, tInt32, tTimestamp, tInt64, tMinKey, tMaxKey]
    rw [decodeBinary_rt _ _ _ hn hg]
    simp only []
    cases h2 : decodeElems isMap true rest <;> simp [Except.map]
  | .undefined =>
    simp only [encodeVal, Except.ok.injEq] at he
    subst he
    rw [show (tUndefined :: writeCstring name) ++ rest =
      tUndefined :: (writeCstring name ++ rest) by simp]
    rw [decodeElems]
    norm_num [tFloat, tString, tEmbedded, tArray, tBinary, tUndefined, tObjectId, tBoolean, tUTCDateTime, tNull, tRegexp, tDBPointer, tJavascript, tSymbol, tJavascriptScope, tInt32, tTimestamp, tInt64, tMinKey, tMaxKey]
    rw [decodeUndefined_rt _ _ hn]
    simp only []
    cases h2 : decodeElems isMap true rest <;> simp [Except.map]
  | .objectId b =>
    simp only [goodVal, decide_eq_true_eq] at hg
    simp only [encodeVal] at he
    rw [if_pos hg] at he
    simp only [Except.ok.injEq] at he
    subst he
    rw [show (tObjectId :: writeCstring name ++ b) ++ rest =
      tObjectId :: ((writeCstring name ++ b) ++ rest) by simp]
    rw [decodeElems]
    norm_num [tFloat, tString, tEmbedded, tArray, tBinary, tUndefined, tObjectId, tBoolean, tUTCDateTime, tNull, tRegexp, tDBPointer, tJavascript, tSymbol, tJavascriptScope, tInt32, tTimestamp, tInt64, tMinKey, tMaxKey]
    rw [decodeObjectId_rt _ _ _ hn hg]
    simp only []
    cases h2 : decodeElems isMap true rest <;> simp [Except.map]
  | .bool b =>
    simp only [encodeVal, Except.ok.injEq] at he
    subst he
    rw [show (tBoolean :: writeCstring name ++ [if b then 1 else 0]) ++ rest =
      tBoolean :: ((writeCstring name ++ [if b then 1 else 0]) ++ rest) by simp]
    rw [decodeElems]
    norm_num [tFloat, tString, tEmbedded, tArray, tBinary, tUndefined, tObjectId, tBoolean, tUTCDateTime, tNull, tRegexp, tDBPointer, tJavascript, tSymbol, tJavascriptScope, tInt32, tTimestamp, tInt64, tMinKey, tMaxKey]
    rw [decodeBool_rt _ _ _ hn]
    simp only []
    cases h2 : decodeElems isMap true rest <;> simp [Except.map]
  | .utcDateTime ms =>
    simp only [goodVal, Bool.and_eq_true, decide_eq_true_eq] at hg
    simp only [encodeVal, Except.ok.injEq] at he
    subst he
    rw [show (tUTCDateTime :: writeCstring name ++ intToLE8 ms) ++ rest =
      tUTCDateTime :: ((writeCstring name ++ intToLE8 ms) ++ rest) by simp]
    rw [decodeElems]
    norm_num [tFloat, tString, tEmbedded, tArray, tBinary, tUndefined, tObjectId, tBoolean, tUTCDateTime, tNull, tRegexp, tDBPointer, tJavascript, tSymbol, tJavascriptScope, tInt32, tTimestamp, tInt64, tMinKey, tMaxKey]
    rw [decodeUTCDateTime_rt _ _ _ hn hg.1 hg.2]
    simp only []
    cases h2 : decodeElems isMap true rest <;> simp [Except.map]
  | .null =>
    simp only [encodeVal, Except.ok.injEq] at he
    subst he
    rw [show (tNull :: writeCstring name) ++ rest =
      tNull :: (writeCstring name ++ rest) by simp]
    rw [decodeElems]
    norm_num [tFloat, tString, tEmbedded, tArray, tBinary, tUndefined, tObjectId, tBoolean, tUTCDateTime, tNull, tRegexp, tDBPointer, tJavascript, tSymbol, tJavascriptScope, tInt32, tTimestamp, tInt64, tMinKey, tMaxKey]
    rw [decodeNull_rt _ _ hn]
    simp only []
    cases h2 : decodeElems isMap true rest <;> simp [Except.map]
  | .regexp pat opt =>
    simp only [goodVal, Bool.and_eq_true] at hg
    simp only [encodeVal, Except.ok.injEq] at he
    subst he
    rw [show (tRegexp :: writeCstring name ++ writeCstring pat ++ writeCstring opt) ++ rest =
      tRegexp :: ((writeCstring name ++ writeCstring pat ++ writeCstring opt) ++ rest) by simp]
    rw [decodeElems]
    norm_num [tFloat, tString, tEmbedded, tArray, tBinary, tUndefined, tObjectId, tBoolean, tUTCDateTime, tNull, tRegexp, tDBPointer, tJavascript, tSymbol, tJavascriptScope, tInt32, tTimestamp, tInt64, tMinKey, tMaxKey]
    rw [decodeRegexp_rt _ _ _ _ hn hg.1 hg.2]
    simp only []
    cases h2 : decodeElems isMap true rest <;> simp [Except.map]
  | .dbPointer nm oid =>
    simp only [goodVal, Bool.and_eq_true, decide_eq_true_eq] at hg
    simp only [encodeVal] at he
    rw [if_pos hg.2] at he
    simp only [Except.ok.injEq] at he
    subst he
    rw [show (tDBPointer :: writeCstring name ++ writeString nm ++ oid) ++ rest
      = tDBPointer :: ((writeCstring name ++ writeString nm ++ oid) ++ rest)
      by simp]
    rw [decodeElems]
    norm_num [tFloat, tString, tEmbedded, tArray, tBinary, tUndefined, tObjectId, tBoolean, tUTCDateTime, tNull, tRegexp, tDBPointer, tJavascript, tSymbol, tJavascriptScope, tInt32, tTimestamp, tInt64, tMinKey, tMaxKey]
    rw [decodeDBPointer_rt _ _ _ _ hn hg.1 hg.2]
    simp only []
    cases h2 : decodeElems isMap true rest <;> simp [Except.map]
  | .javascript s =>
    simp only [goodVal, decide_eq_true_eq] at hg
    simp only [encodeVal, Except.ok.injEq] at he
    subst he
    rw [show (tJavascript :: writeCstring name ++ writeString s) ++ rest =
      tJavascript :: ((writeCstring name ++ writeString s) ++ rest) by simp]
    rw [decodeElems]
    norm_num [tFloat, tString, tEmbedded, tArray, tBinary, tUndefined, tObjectId, tBoolean, tUTCDateTime, tNull, tRegexp, tDBPointer, tJavascript, tSymbol, tJavascriptScope, tInt32, tTimestamp, tInt64, tMinKey, tMaxKey]
    rw [decodeJavascript_rt _ _ _ hn hg]
    simp only []
    cases h2 : decodeElems isMap true rest <;> simp [Except.map]
  | .symbol s =>
    simp only [goodVal, decide_eq_true_eq] at hg
    simp only [encodeVal, Except.ok.injEq] at he
    subst he
    rw [show (tSymbol :: writeCstring name ++ writeString s) ++ rest =
      tSymbol :: ((writeCstring name ++ writeString s) ++ rest) by simp]
    rw [decodeElems]
    norm_num [tFloat, tString, tEmbedded, tArray, tBinary, tUndefined, tObjectId, tBoolean, tUTCDateTime, tNull, tRegexp, tDBPointer, tJavascript, tSymbol, tJavascriptScope, tInt32, tTimestamp, tInt64, tMinKey, tMaxKey]
    rw [decodeSymbol_rt _ _ _ hn hg]
    simp only []
    cases h2 : decodeElems isMap true rest <;> simp [Except.map]
  | .int32 n =>
    simp only [goodVal, Bool.and_eq_true, decide_eq_true_eq] at hg
    simp only [encodeVal, Except.ok.injEq] at he
    subst he
    rw [show (tInt32 :: writeCstring name ++ intToLE4 n) ++ rest =
      tInt32 :: ((writeCstring name ++ intToLE4 n) ++ rest) by simp]
    rw [decodeElems]
    norm_num [tFloat, tString, tEmbedded, tArray, tBinary, tUndefined, tObjectId, tBoolean, tUTCDateTime, tNull, tRegexp, tDBPointer, tJavascript, tSymbol, tJavascriptScope, tInt32, tTimestamp, tInt64, tMinKey, tMaxKey]
    rw [decodeInt32_rt _ _ _ hn hg.1 hg.2]
    simp only []
    cases h2 : decodeElems isMap true rest <;> simp [Except.map]
  | .timestamp n =>
    simp only [goodVal, Bool.and_eq_true, decide_eq_true_eq] at hg
    simp only [encodeVal, Except.ok.injEq] at he
    subst he
    rw [show (tTimestamp :: writeCstring name ++ intToLE8 n) ++ rest =
      tTimestamp :: ((writeCstring name ++ intToLE8 n) ++ rest) by simp]
    rw [decodeElems]
    norm_num [tFloat, tString, tEmbedded, tArray, tBinary, tUndefined, tObjectId, tBoolean, tUTCDateTime, tNull, tRegexp, tDBPointer, tJavascript, tSymbol, tJavascriptScope, tInt32, tTimestamp, tInt64, tMinKey, tMaxKey]
    rw [decodeTimestamp_rt _ _ _ hn hg.1 hg.2]
    simp only []
    cases h2 : decodeElems isMap true rest <;> simp [Except.map]
  | .int64 n =>
    simp only [goodVal, Bool.and_eq_true, decide_eq_true_eq] at hg
    simp only [encodeVal, Except.ok.injEq] at he
    subst he
    rw [show (tInt64 :: writeCstring name ++ intToLE8 n) ++ rest =
      tInt64 :: ((writeCstring name ++ intToLE8 n) ++ rest) by simp]
    rw [decodeElems]
    norm_num [tFloat, tString, tEmbedded, tArray, tBinary, tUndefined, tObjectId, tBoolean, tUTCDateTime, tNull, tRegexp, tDBPointer, tJavascript, tSymbol, tJavascriptScope, tInt32, tTimestamp, tInt64, tMinKey, tMaxKey]
    rw [decodeInt64_rt _ _ _ hn hg.1 hg.2]
    simp only []
    cases h2 : decodeElems isMap true rest <;> simp [Except.map]
  | .minKey =>
    simp only [encodeVal, Except.ok.injEq] at he
    subst he
    rw [show (tMinKey :: writeCstring name) ++ rest =
      tMinKey :: (writeCstring name ++ rest) by simp]
    rw [decodeElems]
    norm_num [tFloat, tString, tEmbedded, tArray, tBinary, tUndefined, tObjectId, tBoolean, tUTCDateTime, tNull, tRegexp, tDBPointer, tJavascript, tSymbol, tJavascriptScope, tInt32, tTimestamp, tInt64, tMinKey, tMaxKey]
    rw [decodeMinKey_rt _ _ hn]
    simp only []
    cases h2 : decodeElems isMap true rest <;> simp [Except.map]
  | .maxKey =>
    simp only [encodeVal, Except.ok.injEq] at he
    subst he
    rw [show (tMaxKey :: writeCstring name) ++ rest =
      tMaxKey :: (writeCstring name ++ rest) by simp]
    rw [decodeElems]
    norm_num [tFloat, tString, tEmbedded, tArray, tBinary, tUndefined, tObjectId, tBoolean, tUTCDateTime, tNull, tRegexp, tDBPointer, tJavascript, tSymbol, tJavascriptScope, tInt32, tTimestamp, tInt64, tMinKey, tMaxKey]
    rw [decodeMaxKey_rt _ _ hn]
    simp only []
    cases h2 : decodeElems isMap true rest <;> simp [Except.map]
  | .slice s =>
    simp only [goodVal, Bool.and_eq_true] at hg
    obtain ⟨hm, hdoc⟩ := hg
    have hm2 : isMap = false := by
      cases isMap
      · rfl
      · simp at hm
    subst hm2
    simp only [goodDoc, Bool.and_eq_true] at hdoc
    obtain ⟨⟨hnodup2, helems⟩, hsize⟩ := hdoc
    simp only [encodeVal] at he
    cases h1 : encodeDoc s with
    | error e => rw [h1] at he; simp [bind, Except.bind] at he
    | ok db =>
      rw [h1] at he
      simp [bind, Except.bind] at he
      subst he
      rw [encodeDoc] at h1
      cases h2 : encodePairs s with
      | error e => rw [h2] at h1; simp [bind, Except.bind] at h1
      | ok body =>
        rw [h2] at h1
        simp [bind, Except.bind] at h1
        subst h1
        have hs : body.length + 5 ≤ maxDocLenNat := by
          simp only [docSizeOk, h2, decide_eq_true_eq] at hsize
          exact hsize
        simp only [List.cons_append, List.append_assoc, List.singleton_append]
        rw [decodeElems]
        simp only [tFloat, tString, tEmbedded, tArray, tBinary, tUndefined, tObjectId, tBoolean, tUTCDateTime, tNull, tRegexp, tDBPointer, tJavascript, tSymbol, tJavascriptScope, tInt32, tTimestamp, tInt64, tMinKey, tMaxKey]
        norm_num
        rw [readCstring_writeCstring _ _ hn]
        simp only [List.nil_append]
        rw [docSpan_frame2 body rest hs]
        simp only []
        rw [rtPairs s false body [] helems h2]
        simp only []
        cases h3 : decodeElems false true rest <;> simp [Except.map]
  | .array a =>
    cases a with
    | nil => simp [goodVal] at hg
    | cons x as =>
      simp only [goodVal, Bool.and_eq_true, decide_eq_true_eq] at hg
      obtain ⟨⟨⟨hne, hlen⟩, hitems⟩, hsize⟩ := hg
      simp only [encodeVal, encodeArray] at he
      cases h2 : encodeItems 0 (x :: as) with
      | error e => rw [h2] at he; simp [bind, Except.bind] at he
      | ok body =>
        rw [h2] at he
        simp [bind, Except.bind] at he
        subst he
        have hs : body.length + 5 ≤ maxDocLenNat := by
          simp only [arraySizeOk, h2, decide_eq_true_eq] at hsize
          exact hsize
        simp only [List.cons_append, List.append_assoc, List.singleton_append]
        rw [decodeElems]
        simp only [tFloat, tString, tEmbedded, tArray, tBinary, tUndefined, tObjectId, tBoolean, tUTCDateTime, tNull, tRegexp, tDBPointer, tJavascript, tSymbol, tJavascriptScope, tInt32, tTimestamp, tInt64, tMinKey, tMaxKey]
        norm_num
        rw [readCstring_writeCstring _ _ hn]
        simp only [List.nil_append]
        rw [docSpan_frame2 body rest hs]
        simp only []
        rw [rtItems (x :: as) 0 body [] hitems h2]
        simp only []
        rw [arrayFromDoc_items (x :: as) (by simp) hlen]
        cases h3 : decodeElems isMap true rest <;> simp [Except.map]
  | .javascriptScope js sc =>
    simp only [goodVal, Bool.and_eq_true, decide_eq_true_eq] at hg
    obtain ⟨hjs, hdoc⟩ := hg
    simp only [goodDoc, if_true, Bool.and_eq_true] at hdoc
    obtain ⟨⟨hnodup, helems⟩, hsize⟩ := hdoc
    simp only [encodeVal] at he
    cases h1 : encodeDoc sc with
    | error e => rw [h1] at he; simp [bind, Except.bind] at he
    | ok sb =>
      rw [h1] at he
      simp [bind, Except.bind] at he
      subst he
      rw [encodeDoc] at h1
      cases h2 : encodePairs sc with
      | error e => rw [h2] at h1; simp [bind, Except.bind] at h1
      | ok body =>
        rw [h2] at h1
        simp [bind, Except.bind] at h1
        subst h1
        have hs : body.length + 5 ≤ maxDocLenNat := by
          simp only [docSizeOk, h2, decide_eq_true_eq] at hsize
          exact hsize
        simp only [List.cons_append, List.append_assoc, List.singleton_append]
        rw [decodeElems]
        simp only [tFloat, tString, tEmbedded, tArray, tBinary, tUndefined, tObjectId, tBoolean, tUTCDateTime, tNull, tRegexp, tDBPointer, tJavascript, tSymbol, tJavascriptScope, tInt32, tTimestamp, tInt64, tMinKey, tMaxKey]
        norm_num
        rw [readCstring_writeCstring _ _ hn]
        simp only []
        rw [readInt32_bytes]
        simp only [List.nil_append]
        rw [readString_writeString _ _ hjs]
        simp only []
        rw [docSpan_frame2 body rest hs]
        simp only []
        rw [rtPairs sc true body [] helems h2]
        simp only []
        rw [mapFromPairs_nodup sc hnodup]
        cases h3 : decodeElems isMap true rest <;> simp [Except.map]
  | .bson b => simp [goodVal] at hg
  | .goNil => simp [goodVal] at hg
  | .goBool b => simp [goodVal] at hg
  | .goInt8 n => simp [goodVal] at hg
  | .goInt16 n => simp [goodVal] at hg
  | .goInt32 n => simp [goodVal] at hg
  | .goInt n => simp [goodVal] at hg
  | .goInt64 n => simp [goodVal] at hg
  | .goFloat64 b => simp [goodVal] at hg
  | .goString s => simp [goodVal] at hg
  | .goTime t => simp [goodVal] at hg
  | .goBytes b => simp [goodVal] at hg
  | .goSlice xs => simp [goodVal] at hg
  | .goUnsupported t => simp [goodVal] at hg
termination_by (sizeOf v, 0)

theorem rtPairs (ps : Pairs) (isMap : Bool) (bs tail : List Nat)
    (hg : goodPairsElems isMap ps = true) (he : encodePairs ps = .ok bs) :
    decodeElems isMap true (bs ++ 0 :: tail) = .ok ps := by
  match ps with
  | [] =>
    simp only [encodePairs, Except.ok.injEq] at he
    subst he
    rw [List.nil_append, decodeElems]
    simp
  | (k, v) :: rest =>
    simp only [goodPairsElems, Bool.and_eq_true] at hg
    obtain ⟨⟨hk, hv⟩, hrest⟩ := hg
    simp only [encodePairs] at he
    cases h1 : encodeVal k v with
    | error e => rw [h1] at he; simp [bind, Except.bind] at he
    | ok eb =>
      cases h2 : encodePairs rest with
      | error e => rw [h1, h2] at he; simp [bind, Except.bind] at he
      | ok rb =>
        rw [h1, h2] at he
        simp [bind, Except.bind] at he
        subst he
        rw [List.append_assoc]
        rw [rtVal v isMap k eb (rb ++ 0 :: tail) hv hk h1]
        rw [rtPairs rest isMap rb tail hrest h2]
        simp [Except.map]
termination_by (sizeOf ps, 1)

theorem rtItems (l : List Value) (i : Nat) (bs tail : List Nat)
    (hg : goodItems l = true) (he : encodeItems i l = .ok bs) :
    decodeElems true true (bs ++ 0 :: tail) = .ok (itemsPairs i l) := by
  match l with
  | [] =>
    simp only [encodeItems, Except.ok.injEq] at he
    subst he
    rw [List.nil_append, decodeElems]
    simp [itemsPairs]
  | v :: rest =>
    simp only [goodItems, Bool.and_eq_true] at hg
    obtain ⟨hv, hrest⟩ := hg
    simp only [encodeItems] at he
    cases h1 : encodeVal (natToDecStr i) v with
    | error e => rw [h1] at he; simp [bind, Except.bind] at he
    | ok eb =>
      cases h2 : encodeItems (i + 1) rest with
      | error e => rw [h1, h2] at he; simp [bind, Except.bind] at he
      | ok rb =>
        rw [h1, h2] at he
        simp [bind, Except.bind] at he
        subst he
        rw [List.append_assoc]
        rw [rtVal v true (natToDecStr i) eb (rb ++ 0 :: tail) hv
          (noNul_natToDecStr i) h1]
        rw [rtItems rest (i + 1) rb tail hrest h2]
        simp [Except.map, itemsPairs]
termination_by (sizeOf l, 1)

end

end Bson

namespace Bson

theorem ReadMap_roundtrip (m : Pairs) (bs : List Nat)
    (hg : goodDoc true m = true) (he : encodeDoc m = .ok bs) :
    ReadMap bs = .ok m := by
  simp only [goodDoc, if_true, Bool.and_eq_true] at hg
  obtain ⟨⟨hnodup, helems⟩, hsize⟩ := hg
  rw [encodeDoc] at he
  cases h2 : encodePairs m with
  | error e => rw [h2] at he; simp [bind, Except.bind] at he
  | ok body =>
    rw [h2] at he
    simp [bind, Except.bind] at he
    subst he
    have hs : body.length + 5 ≤ maxDocLenNat := by
      simp only [docSizeOk, h2, decide_eq_true_eq] at hsize
      exact hsize
    simp only [ReadMap, decodeDoc]
    rw [docSpan_frame2 body [] hs]
    simp only []
    rw [rtPairs m true body [] helems h2]
    simp only []
    rw [mapFromPairs_nodup m hnodup]

theorem ReadSlice_roundtrip (s : Pairs) (bs : List Nat)
    (hg : goodDoc false s = true) (he : encodeDoc s = .ok bs) :
    ReadSlice bs = .ok s := by
  simp only [goodDoc, Bool.and_eq_true] at hg
  obtain ⟨⟨_, helems⟩, hsize⟩ := hg
  rw [encodeDoc] at he
  cases h2 : encodePairs s with
  | error e => rw [h2] at he; simp [bind, Except.bind] at he
  | ok body =>
    rw [h2] at he
    simp [bind, Except.bind] at he
    subst he
    have hs : body.length + 5 ≤ maxDocLenNat := by
      simp only [docSizeOk, h2, decide_eq_true_eq] at hsize
      exact hsize
    simp only [ReadSlice, decodeDoc]
    rw [docSpan_frame2 body [] hs]
    simp only []
    rw [rtPairs s false body [] helems h2]

end Bson

namespace Bson

/-- Claim C2: the claim states that for a Slice document with a pair (k, leaf)
whose leaf is a coercible Int32, Slice.Reach with a compatible destination and
path [k] assigns the leaf into the destination and returns (true, nil), the
same outcome Map.Reach gives.  The code violates this: reach's Slice case sets
the cursor to the whole Pair (cur = v, not v.Val), assign has no case for
Pair, so Slice.Reach returns (true, nil) WITHOUT writing the destination,
while Map.Reach on the equivalent document writes 7.  This theorem evaluates
the code at the failing input: key "k" (byte 107), value Int32 7, an int32
destination holding 0. -/
theorem claim2_slice_reach_bug :
    sliceReach [([107], .int32 7)] (.dInt32 0) [[107]] =
      .ok (true, .dInt32 0) ∧
    mapReach [([107], .int32 7)] (.dInt32 0) [[107]] =
      .ok (true, .dInt32 7) ∧
    reach (.cv (.slice [([107], .int32 7)])) [[107]] =
      some (.cpair [107] (.int32 7)) :=
  ⟨rfl, rfl, rfl⟩

/-- Claim C10: the claim states ReadOne is total and rejects a negative
declared length with an error before the allocation sized from it.  The code
violates this: with length prefix fc ff ff ff (int32 -4) the size guard
docLen > maxDocLen passes, and make([]byte, -4) panics; ReadOne has no
recover, so the call aborts instead of returning an error. -/
theorem claim10_readone_negative_panics :
    ReadOne [252, 255, 255, 255] = .panic .makeSliceNeg ∧
    toSigned32 (fromLE [252, 255, 255, 255]) = -4 := by
  exact ⟨rfl, by decide⟩

/-- Claim C4: every decode entry point (ReadOne, ReadMap, ReadMapNoNest,
ReadSlice, ReadSliceNoNest) rejects a stream whose leading 4-byte
little-endian length prefix declares a size strictly above the configured
maximum document size, returning the "Doc exceeded maximum size." error after
consuming only the prefix — the result is the same for every continuation
`rest` of the stream, including the empty one, so no body bytes are needed or
read. -/
theorem claim4_size_ceiling (b : List Nat) (hlen : b.length = 4)
    (hmax : maxDocLen < toSigned32 (fromLE b)) :
    ∀ rest : List Nat,
      ReadOne (b ++ rest) = .err .tooLarge ∧
      ReadMap (b ++ rest) = .error .tooLarge ∧
      ReadMapNoNest (b ++ rest) = .error .tooLarge ∧
      ReadSlice (b ++ rest) = .error .tooLarge ∧
      ReadSliceNoNest (b ++ rest) = .error .tooLarge := by
  intro rest
  match b, hlen with
  | [b0, b1, b2, b3], _ =>
    have hri : readInt32 ((b0 :: b1 :: b2 :: b3 :: []) ++ rest) =
        .ok (toSigned32 (fromLE [b0, b1, b2, b3]), rest) := rfl
    refine ⟨?_, ?_, ?_, ?_, ?_⟩
    · simp only [ReadOne, readOneCore, hri]
      rw [if_pos hmax]
    · simp only [ReadMap, decodeDoc, docSpan, hri]
      rw [if_pos hmax]
    · simp only [ReadMapNoNest, decodeDoc, docSpan, hri]
      rw [if_pos hmax]
    · simp only [ReadSlice, decodeDoc, docSpan, hri]
      rw [if_pos hmax]
    · simp only [ReadSliceNoNest, decodeDoc, docSpan, hri]
      rw [if_pos hmax]

/-- Witness for claim4_size_ceiling: the prefix declaring 16 MiB + 1. -/
theorem claim4_witness :
    ReadOne [1, 0, 0, 1] = .err .tooLarge ∧
    ReadMap [1, 0, 0, 1] = .error .tooLarge := by
  have h := claim4_size_ceiling [1, 0, 0, 1] (by decide) (by decide) []
  exact ⟨h.1, h.2.1⟩

end Bson

namespace Bson

/-- Claim C6: on the document {"a": {"b": Int32 n}} (keys are the bytes of
"a" and "b"), Reach over path ["a","b"] assigns n and returns (true, nil)
into both an int32 and an int64 destination (widening allowed); an Int64 leaf
into an int32 destination is the coercion error naming both types (narrowing
refused); an Int32 leaf into a bool destination is the type error naming the
mismatch.  The destination's prior contents are irrelevant. -/
theorem claim6_reach_coercions (n : Int)
    (h1 : -2147483648 ≤ n) (h2 : n < 2147483648)
    (i32 i64 : Int) (b : Bool) :
    mapReach [([97], .map [([98], .int32 n)])] (.dInt32 i32) [[97], [98]] =
      .ok (true, .dInt32 n) ∧
    mapReach [([97], .map [([98], .int32 n)])] (.dInt64 i64) [[97], [98]] =
      .ok (true, .dInt64 n) ∧
    mapReach [([97], .map [([98], .int64 n)])] (.dInt32 i32) [[97], [98]] =
      .error (.cannotCoerce "bson.Int64" "int32") ∧
    mapReach [([97], .map [([98], .int32 n)])] (.dBool b) [[97], [98]] =
      .error (.cannotCoerce "bson.Int32" "bool") := by
  refine ⟨?_, rfl, rfl, rfl⟩
  have hr : reach (.cv (.map [([97], .map [([98], .int32 n)])])) [[97], [98]]
      = some (.cv (.int32 n)) := rfl
  simp only [mapReach, hr]
  simp only [assign]
  rw [if_pos ⟨h1, h2⟩]

/-- Witness for claim6_reach_coercions at n = 7 with zeroed destinations. -/
theorem claim6_witness :
    mapReach [([97], .map [([98], .int32 7)])] (.dInt32 0) [[97], [98]] =
      .ok (true, .dInt32 7) ∧
    mapReach [([97], .map [([98], .int32 7)])] (.dBool false) [[97], [98]] =
      .error (.cannotCoerce "bson.Int32" "bool") := by
  have h := claim6_reach_coercions 7 (by decide) (by decide) 0 0 false
  exact ⟨h.1, h.2.2.2⟩

/-- Claim C7: Reach's not-found outcome is (false, nil) with the destination
untouched, never an error: (1)/(2) whenever the walk fails, Map.Reach and
Slice.Reach return ok=false, no error, and the destination unchanged; (3) a
scalar canonical value (the code's scalar case list) cannot be descended
into; (4)/(5) a name absent from a Map or Slice fails the walk; (6) an error
return implies the walk found a value (only a coercion mismatch on a found
value errors). -/
theorem claim7_not_found_is_not_error :
    (∀ (m : Pairs) (dst : Dest) (dot : List Str),
      reach (.cv (.map m)) dot = none → mapReach m dst dot = .ok (false, dst)) ∧
    (∀ (s : Pairs) (dst : Dest) (dot : List Str),
      reach (.cv (.slice s)) dot = none →
        sliceReach s dst dot = .ok (false, dst)) ∧
    (∀ (cur : Cur) (name : Str) (rest : List Str),
      isReachScalar cur = true → reach cur (name :: rest) = none) ∧
    (∀ (m : Pairs) (name : Str) (rest : List Str),
      alookup m name = none → reach (.cv (.map m)) (name :: rest) = none) ∧
    (∀ (s : Pairs) (name : Str) (rest : List Str),
      s.find? (fun p => p.1 = name) = none →
        reach (.cv (.slice s)) (name :: rest) = none) ∧
    (∀ (m : Pairs) (dst : Dest) (dot : List Str) (e : AErr),
      mapReach m dst dot = .error e →
        ∃ src, reach (.cv (.map m)) dot = some src) := by
  refine ⟨?_, ?_, ?_, ?_, ?_, ?_⟩
  · intro m dst dot h
    simp [mapReach, h]
  · intro s dst dot h
    simp [sliceReach, h]
  · intro cur name rest h
    cases cur with
    | cv v => cases v <;> simp_all [isReachScalar, reach]
    | cstr s => simp [isReachScalar] at h
    | cpair k v => simp [isReachScalar] at h
  · intro m name rest h
    simp [reach, h]
  · intro s name rest h
    simp [reach, h]
  · intro m dst dot e h
    cases hre : reach (.cv (.map m)) dot with
    | none => rw [mapReach, hre] at h; simp at h
    | some src => exact ⟨src, rfl⟩

/-- Witness for claim7_not_found_is_not_error: a missing key and a scalar
descent, concretely. -/
theorem claim7_witness :
    mapReach [] (.dBool false) [[107]] = .ok (false, .dBool false) ∧
    reach (.cv (.int32 5)) [[107]] = none := by
  exact ⟨claim7_not_found_is_not_error.1 [] (.dBool false) [[107]] rfl,
         claim7_not_found_is_not_error.2.2.1 (.cv (.int32 5)) [107] [] rfl⟩

end Bson

namespace Bson

/-- Claim C3 counterexample: the claim says any host-native type outside the
listed coercions is a fatal encode error, but a native slice that is not
[]byte (here a []int32 containing one element) is encoded by the reflect
fallback as an Array (tag 0x04 with decimal keys), not rejected. -/
theorem claim3_counterexample :
    encodeVal [97] (.goSlice [.goInt32 1]) =
      .ok [4, 97, 0, 12, 0, 0, 0, 16, 48, 0, 1, 0, 0, 0, 0] := by
  simp [encodeVal, encodeArray, encodeItems, natToDecStr, decDigits,
    writeCstring, intToLE4, natToLE, bind, Except.bind, tArray, tInt32]
  decide

/-- Claim C3 (amended): the encoder's host-native coercions are exactly the
documented table — nil and nil pointers become Null (0x0A); bool becomes Bool
(0x08); int8/int16/int32 become Int32 (0x10); int and int64 become Int64
(0x12); float64 becomes Double (0x01); string becomes Str (0x02); []byte
becomes Binary (0x05) with subtype byte 0x00; time.Time becomes UTCDateTime
(0x09) holding UnixNano()/1000/1000, the truncated milliseconds since the
Unix epoch — EXCEPT that a native slice of any other element type is encoded
as an Array of its coerced elements rather than rejected; only a value whose
type has no coercion and no handled reflect kind is the fatal "cannot encode"
error naming the type. -/
theorem claim3_native_coercions :
    (∀ name : Str, encodeVal name .goNil = .ok (tNull :: writeCstring name)) ∧
    (∀ (name : Str) (b : Bool), encodeVal name (.goBool b) =
      .ok (tBoolean :: writeCstring name ++ [if b then 1 else 0])) ∧
    (∀ (name : Str) (n : Int), encodeVal name (.goInt8 n) =
      .ok (tInt32 :: writeCstring name ++ intToLE4 n)) ∧
    (∀ (name : Str) (n : Int), encodeVal name (.goInt16 n) =
      .ok (tInt32 :: writeCstring name ++ intToLE4 n)) ∧
    (∀ (name : Str) (n : Int), encodeVal name (.goInt32 n) =
      .ok (tInt32 :: writeCstring name ++ intToLE4 n)) ∧
    (∀ (name : Str) (n : Int), encodeVal name (.goInt n) =
      .ok (tInt64 :: writeCstring name ++ intToLE8 n)) ∧
    (∀ (name : Str) (n : Int), encodeVal name (.goInt64 n) =
      .ok (tInt64 :: writeCstring name ++ intToLE8 n)) ∧
    (∀ (name : Str) (bits : Nat), encodeVal name (.goFloat64 bits) =
      .ok (tFloat :: writeCstring name ++ natToLE 8 bits)) ∧
    (∀ (name s : Str), encodeVal name (.goString s) =
      .ok (tString :: writeCstring name ++ writeString s)) ∧
    (∀ (name : Str) (b : List Nat), encodeVal name (.goBytes b) =
      .ok (tBinary :: writeCstring name ++ natToLE 4 b.length ++ 0 :: b)) ∧
    (∀ (name : Str) (ns : Int), encodeVal name (.goTime ns) =
      .ok (tUTCDateTime :: writeCstring name ++
           intToLE8 ((ns.tdiv 1000).tdiv 1000))) ∧
    (∀ (name : Str) (xs : List Value), encodeVal name (.goSlice xs) =
      encodeArray name xs) ∧
    (∀ (name : Str) (ty : String), encodeVal name (.goUnsupported ty) =
      .error (.cannotEncode ty)) := by
  refine ⟨?_, ?_, ?_, ?_, ?_, ?_, ?_, ?_, ?_, ?_, ?_, ?_, ?_⟩ <;>
    intros <;> simp [encodeVal]

end Bson

namespace Bson

/-- Claim C8: the claim says an omit-if-empty field holding nil is absent
from the output.  The code indirects the field first, so a nil pointer or
interface becomes the invalid zero reflect.Value; isEmptyValue returns false
on it (no case of its Kind switch matches), the field is therefore NOT
omitted, and fv.Interface() then panics on the zero Value: struct encoding
aborts instead of omitting the field.  Here a field tagged ",omitempty" that
held nil is projected to an emitted entry, encoding it panics, and omission
would instead have produced the empty document. -/
theorem claim8_nil_omitempty_panics :
    fieldEntry ⟨[78], false, 44 :: omitemptyStr, true, .null⟩ =
      some ([78], .null) ∧
    encodeStruct [⟨[78], false, 44 :: omitemptyStr, true, .null⟩] =
      .panicked ∧
    encodeStruct [] = .ok [5, 0, 0, 0, 0] :=
  ⟨rfl, rfl, rfl⟩

end Bson

namespace Bson

theorem natToLE4_rev_tail (n : Nat) :
    (natToLE 4 n).reverse.drop 1 = (natToLE 3 n).reverse := rfl

theorem strLt_cons_self (x : Nat) (as bs : List Nat) :
    strLt (x :: as) (x :: bs) = strLt as bs := by
  simp [strLt]

theorem strLt_append_same (p as bs : List Nat) :
    strLt (p ++ as) (p ++ bs) = strLt as bs := by
  induction p with
  | nil => rfl
  | cons x xs ih => rw [List.cons_append, List.cons_append, strLt_cons_self, ih]

theorem strLt_be3_succ (m : Nat) (h : m + 1 < 16777216) :
    strLt (natToLE 3 m).reverse (natToLE 3 (m + 1)).reverse = true := by
  show strLt [m / 256 / 256 % 256, m / 256 % 256, m % 256]
      [(m + 1) / 256 / 256 % 256, (m + 1) / 256 % 256, (m + 1) % 256] = true
  simp only [strLt]
  split_ifs <;> first | rfl | omega

theorem tmodWrapToNat (cnt : Int) (hc0 : 0 ≤ cnt) :
    ((Int.tmod cnt 16777215).emod 4294967296).toNat = cnt.toNat % 16777215 := by
  rw [Int.tmod_eq_emod hc0 (by omega)]
  have h1 : Int.emod (cnt % 16777215) 4294967296
      = (cnt % 16777215) % 4294967296 := rfl
  rw [h1]
  omega

/-- Claim C9 counterexample: at counter value 16777215 the generated id's
last three bytes are [0, 0, 0] because the code wraps the counter modulo
16777215 = 2^24 - 1, while the claim's wrap modulo 2^24 would store
[255, 255, 255]. -/
theorem claim9_counterexample :
    (newObjectId 0 [1, 2, 3] 0 16777215).drop 9 = [0, 0, 0] ∧
    (natToLE 3 (16777215 % 16777216)).reverse = [255, 255, 255] ∧
    (newObjectId 0 [1, 2, 3] 0 16777215).drop 9 ≠
      (natToLE 3 (16777215 % 16777216)).reverse := by
  refine ⟨by decide, by decide, by decide⟩

/-- Claim C9 (amended): every generated identifier is exactly 12 bytes and
its bytes 9-11 are the counter's value wrapped modulo 16777215 (that is,
2^24 - 1, not 2^24), stored big-endian; two identifiers generated in
immediate succession in the same second without the counter wrapping compare
strictly increasing byte-lexicographically. -/
theorem claim9_objectid_corrected (now : Int) (hostHash : List Nat)
    (pid cnt : Int) (hh : 3 ≤ hostHash.length) (hc0 : 0 ≤ cnt)
    (hcw : cnt + 1 < 16777215) :
    (newObjectId now hostHash pid cnt).length = 12 ∧
    (newObjectId now hostHash pid cnt).drop 9 =
      (natToLE 3 (cnt.toNat % 16777215)).reverse ∧
    strLt (newObjectId now hostHash pid cnt)
      (newObjectId now hostHash pid (cnt + 1)) = true := by
  rcases hostHash with _ | ⟨a, hostHash⟩
  · simp at hh
  rcases hostHash with _ | ⟨b, hostHash⟩
  · simp at hh
  rcases hostHash with _ | ⟨c, t⟩
  · simp at hh
  have e : ∀ d : Int, newObjectId now (a :: b :: c :: t) pid d =
      ((natToLE 4 (now.emod 4294967296).toNat).reverse ++ [a, b, c] ++
        (natToLE 2 (pid.emod 65536).toNat).reverse) ++
      (natToLE 4 ((Int.tmod d 16777215).emod 4294967296).toNat).reverse.drop 1 :=
    fun d => rfl
  refine ⟨?_, ?_, ?_⟩
  · rw [e cnt]
    rfl
  · rw [e cnt]
    have hp : ((natToLE 4 (now.emod 4294967296).toNat).reverse ++ [a, b, c] ++
        (natToLE 2 (pid.emod 65536).toNat).reverse).length = 9 := rfl
    rw [show (9 : Nat) = ((natToLE 4 (now.emod 4294967296).toNat).reverse ++
        [a, b, c] ++ (natToLE 2 (pid.emod 65536).toNat).reverse).length
      from hp.symm]
    rw [List.drop_left, natToLE4_rev_tail, tmodWrapToNat cnt hc0]
  · rw [e cnt, e (cnt + 1), strLt_append_same, natToLE4_rev_tail,
      natToLE4_rev_tail, tmodWrapToNat cnt hc0,
      tmodWrapToNat (cnt + 1) (by omega)]
    rw [show (cnt + 1).toNat % 16777215 = cnt.toNat % 16777215 + 1 by omega]
    exact strLt_be3_succ _ (by omega)

/-- Claim C9 witness: the amended statement instantiated at time 0, host
hash [9, 9, 9], pid 1, counter 5. -/
theorem claim9_witness :
    (newObjectId 0 [9, 9, 9] 1 5).length = 12 ∧
    (newObjectId 0 [9, 9, 9] 1 5).drop 9 =
      (natToLE 3 ((5 : Int).toNat % 16777215)).reverse ∧
    strLt (newObjectId 0 [9, 9, 9] 1 5)
      (newObjectId 0 [9, 9, 9] 1 (5 + 1)) = true :=
  claim9_objectid_corrected 0 [9, 9, 9] 1 5 (by decide) (by decide) (by decide)

end Bson

namespace Bson

theorem arrayFromDoc_items11 (v0 v1 v2 v3 v4 v5 v6 v7 v8 v9 v10 : Value) :
    arrayFromDoc (mapFromPairs
        (itemsPairs 0 [v0, v1, v2, v3, v4, v5, v6, v7, v8, v9, v10])) =
      [v0, v1, v10, v2, v3, v4, v5, v6, v7, v8, v9] := by
  rw [mapFromPairs_nodup _ (by rfl), arrayFromDoc,
    show sortStrs (keysOf
        (itemsPairs 0 [v0, v1, v2, v3, v4, v5, v6, v7, v8, v9, v10])) =
      [[48], [49], [49, 48], [50], [51], [52], [53], [54], [55], [56], [57]]
      from rfl]
  rfl

end Bson

namespace Bson

/-- Claim C5: decoding an encoded Array field collects the synthetic decimal
index keys of the body document, sorts them by native string ordering (so
key "10" sorts before key "2"), and returns the element values in that
sorted-string key order: an 11-element array comes back with element 10
moved between elements 1 and 2, not in numeric index order. -/
theorem claim5_array_string_sort (name : Str)
    (v0 v1 v2 v3 v4 v5 v6 v7 v8 v9 v10 : Value) (bs rest : List Nat)
    (hg : goodItems [v0, v1, v2, v3, v4, v5, v6, v7, v8, v9, v10] = true)
    (hn : noNul name = true)
    (hsize : arraySizeOk [v0, v1, v2, v3, v4, v5, v6, v7, v8, v9, v10] = true)
    (he : encodeArray name [v0, v1, v2, v3, v4, v5, v6, v7, v8, v9, v10] =
      .ok bs) :
    sortStrs (keysOf (itemsPairs 0 [v0, v1, v2, v3, v4, v5, v6, v7, v8, v9,
        v10])) =
      [[48], [49], [49, 48], [50], [51], [52], [53], [54], [55], [56],
        [57]] ∧
    strLt [49, 48] [50] = true ∧
    decodeElems true true (bs ++ rest) =
      (decodeElems true true rest).map
        (fun ps =>
          (name, Value.array [v0, v1, v10, v2, v3, v4, v5, v6, v7, v8, v9])
            :: ps) := by
  refine ⟨rfl, rfl, ?_⟩
  simp only [encodeArray] at he
  cases h2 : encodeItems 0 [v0, v1, v2, v3, v4, v5, v6, v7, v8, v9, v10] with
  | error e => rw [h2] at he; simp [bind, Except.bind] at he
  | ok body =>
    rw [h2] at he
    simp [bind, Except.bind] at he
    subst he
    have hs : body.length + 5 ≤ maxDocLenNat := by
      simp only [arraySizeOk, h2, decide_eq_true_eq] at hsize
      exact hsize
    simp only [List.cons_append, List.append_assoc, List.singleton_append]
    rw [decodeElems]
    simp only [tFloat, tString, tEmbedded, tArray, tBinary, tUndefined, tObjectId, tBoolean, tUTCDateTime, tNull, tRegexp, tDBPointer, tJavascript, tSymbol, tJavascriptScope, tInt32, tTimestamp, tInt64, tMinKey, tMaxKey]
    norm_num
    rw [readCstring_writeCstring _ _ hn]
    simp only [List.nil_append]
    rw [docSpan_frame2 body rest hs]
    simp only []
    rw [rtItems [v0, v1, v2, v3, v4, v5, v6, v7, v8, v9, v10] 0 body [] hg h2]
    simp only []
    rw [arrayFromDoc_items11]
    cases h3 : decodeElems true true rest <;> simp [Except.map]

end Bson

namespace Bson

/-- Claim C5 witness: an 11-element Int32 array under field name "a" decodes
with element 10 in third position. -/
theorem claim5_witness :
    sortStrs (keysOf (itemsPairs 0 [Value.int32 0, Value.int32 1,
        Value.int32 2, Value.int32 3, Value.int32 4, Value.int32 5,
        Value.int32 6, Value.int32 7, Value.int32 8, Value.int32 9,
        Value.int32 10])) =
      [[48], [49], [49, 48], [50], [51], [52], [53], [54], [55], [56],
        [57]] ∧
    strLt [49, 48] [50] = true ∧
    decodeElems true true
        ([4, 97, 0, 83, 0, 0, 0, 16, 48, 0, 0, 0, 0, 0, 16, 49, 0, 1, 0, 0,
          0, 16, 50, 0, 2, 0, 0, 0, 16, 51, 0, 3, 0, 0, 0, 16, 52, 0, 4, 0,
          0, 0, 16, 53, 0, 5, 0, 0, 0, 16, 54, 0, 6, 0, 0, 0, 16, 55, 0, 7,
          0, 0, 0, 16, 56, 0, 8, 0, 0, 0, 16, 57, 0, 9, 0, 0, 0, 16, 49, 48,
          0, 10, 0, 0, 0, 0] ++ []) =
      (decodeElems true true []).map
        (fun ps =>
          (([97] : Str), Value.array [Value.int32 0, Value.int32 1,
            Value.int32 10, Value.int32 2, Value.int32 3, Value.int32 4,
            Value.int32 5, Value.int32 6, Value.int32 7, Value.int32 8,
            Value.int32 9]) :: ps) :=
  claim5_array_string_sort [97] (.int32 0) (.int32 1) (.int32 2) (.int32 3)
    (.int32 4) (.int32 5) (.int32 6) (.int32 7) (.int32 8) (.int32 9)
    (.int32 10) _ []
    (by simp [goodItems, goodVal])
    (by decide)
    (by simp [arraySizeOk, encodeItems, encodeVal, natToDecStr, decDigits,
          writeCstring, intToLE4, natToLE, bind, Except.bind, maxDocLenNat])
    (by simp [encodeArray, encodeItems, encodeVal, natToDecStr, decDigits,
          writeCstring, intToLE4, natToLE, bind, Except.bind, tInt32, tArray]
        decide)

end Bson

namespace Bson

/-- Claim C1 counterexample: a Map holding one field whose value is the empty
Array encodes to the empty document [5, 0, 0, 0, 0] (encodeArray returns
before writing anything for an empty Array), so decoding returns the empty
document, not a value structurally equal to the original. -/
theorem claim1_counterexample :
    encodeMap [([97], Value.array [])] = .ok [5, 0, 0, 0, 0] ∧
    ReadMap [5, 0, 0, 0, 0] = .ok [] ∧
    ([] : Pairs) ≠ [([97], Value.array [])] := by
  refine ⟨?_, ?_, by simp⟩
  · simp [encodeMap, encodeDoc, encodePairs, encodeVal, encodeArray,
      natToLE, bind, Except.bind]
  · simp [ReadMap, decodeDoc, decodeElems, docSpan, readInt32, readN, fromLE,
      toSigned32, maxDocLen, mapFromPairs, bind, Except.bind]

end Bson

namespace Bson

/-- Claim C1 (amended): for documents built purely from canonical BSON
variants that are admissible — NUL-free field names; shape-homogeneous
nesting (a Map document holds only Map sub-documents and a Slice document
only Slice sub-documents, since the decoder rebuilds every nested document in
the container's own shape, while array elements and JavascriptScope scope
documents are always Map-shaped); no empty Array (whose encoding is silently
dropped); arrays of at most 10 elements (longer ones are permuted by the
string sort of their index keys); no nested raw BSON; 12-byte ObjectId and
DBPointer ids; NUL-free Regexp pattern and options; strings, Javascript,
Symbol, Binary and DBPointer names within the decoder's size ceilings;
numeric payloads in range; encoded size within the 16 MiB document ceiling;
and distinct keys for the Map shape — decoding the result of encoding yields
the original value, for both the Map and the Slice container shapes. -/
theorem claim1_roundtrip_corrected (m s : Pairs) (bm bs : List Nat)
    (hgm : goodDoc true m = true) (hem : encodeMap m = .ok bm)
    (hgs : goodDoc false s = true) (hes : encodeSlice s = .ok bs) :
    ReadMap bm = .ok m ∧ ReadSlice bs = .ok s :=
  ⟨ReadMap_roundtrip m bm hgm hem, ReadSlice_roundtrip s bs hgs hes⟩

/-- Claim C1 witness: a three-field document (Int32, Str, Bool) round-trips
through encoding and decoding in both container shapes. -/
theorem claim1_witness :
    ReadMap [26, 0, 0, 0, 16, 97, 0, 7, 0, 0, 0, 2, 98, 0, 3, 0, 0, 0, 104,
        105, 0, 8, 99, 0, 1, 0] =
      .ok [([97], Value.int32 7), ([98], Value.str [104, 105]),
           ([99], Value.bool true)] ∧
    ReadSlice [26, 0, 0, 0, 16, 97, 0, 7, 0, 0, 0, 2, 98, 0, 3, 0, 0, 0,
        104, 105, 0, 8, 99, 0, 1, 0] =
      .ok [([97], Value.int32 7), ([98], Value.str [104, 105]),
           ([99], Value.bool true)] :=
  claim1_roundtrip_corrected
    [([97], Value.int32 7), ([98], Value.str [104, 105]),
     ([99], Value.bool true)]
    [([97], Value.int32 7), ([98], Value.str [104, 105]),
     ([99], Value.bool true)] _ _
    (by simp [goodDoc, nodupKeys, goodPairsElems, goodVal, noNul, keysOf,
          docSizeOk, encodePairs, encodeVal, writeCstring, writeString,
          intToLE4, natToLE, bind, Except.bind, maxDocLenNat])
    (by simp [encodeMap, encodeDoc, encodePairs, encodeVal, writeCstring,
          writeString, intToLE4, natToLE, bind, Except.bind, tInt32,
          tString, tBoolean]
        decide)
    (by simp [goodDoc, nodupKeys, goodPairsElems, goodVal, noNul, keysOf,
          docSizeOk, encodePairs, encodeVal, writeCstring, writeString,
          intToLE4, natToLE, bind, Except.bind, maxDocLenNat])
    (by simp [encodeSlice, encodeDoc, encodePairs, encodeVal, writeCstring,
          writeString, intToLE4, natToLE, bind, Except.bind, tInt32,
          tString, tBoolean]
        decide)

end Bson
